import Mathlib

/-!
# Dragonfly2 dynamic configuration: scheduler role and CDN role

A shallow embedding of `scheduler/config/dynconfig.go` and
`cdn/config/dynconfig.go`.

Conventions of the embedding

* A Go `error` is a value of `GoError`; the `nil` error is `none`.
* A Go pointer or interface value that may be `nil` (the embedded store, the
  manager client, the config, an RPC response, the scheduler descriptor and
  the scheduler cluster of a payload) is an `Option`; a method call or field
  access through `none` is the run-time panic `Outcome.goPanic`. Method
  receivers and the elements of message slices are not `nil`.
* A Go function returning `(T, error)` returns the pair `T × Option GoError`.
* External collaborators that are not part of these two files (the generic
  store `internal/dynconfig`, the manager RPC client, the health client,
  `ip.FormatIP`, `encoding/json`) are parameters of the definitions, so every
  theorem holds for each of their possible behaviours.
* A Go `map` used as a set is its list of keys without repetition; the order
  of a `range` over it is chosen by an arbitrary seed (`mapRange`).
-/

namespace Dragonfly

/-! ## Go run-time values -/

/-- The gRPC status codes of `google.golang.org/grpc/codes` (numeric order). -/
inductive Code where
  | OK
  | Canceled
  | Unknown
  | InvalidArgument
  | DeadlineExceeded
  | NotFound
  | AlreadyExists
  | PermissionDenied
  | ResourceExhausted
  | FailedPrecondition
  | Aborted
  | OutOfRange
  | Unimplemented
  | Internal
  | Unavailable
  | DataLoss
  | Unauthenticated
  deriving DecidableEq, Repr

/-- A non-nil Go `error`: its message and, when the error carries a gRPC
status (it has a `GRPCStatus` method), the code of that status. -/
structure GoError where
  msg : String
  grpcStatus : Option Code
  deriving DecidableEq, Repr

/-- The Go call `errors.New(msg)`: a plain error that carries no gRPC status. -/
def errorsNew (msg : String) : GoError := ⟨msg, none⟩

/-- The Go call `status.FromError(err)` for a non-nil `err`: the status of the
error and `true` when it carries one, otherwise a status of code `Unknown`
and `false`. -/
def statusFromError (err : GoError) : Code × Bool :=
  match err.grpcStatus with
  | some c => (c, true)
  | none => (Code.Unknown, false)

/-- How a Go call ends: it returns a value, or the goroutine panics. -/
inductive Outcome (α : Type) where
  | ret (a : α)
  | goPanic (reason : String)
  deriving DecidableEq, Repr

/-- The panic raised by a method call or field access through `nil`. -/
def nilDereference : String :=
  "runtime error: invalid memory address or nil pointer dereference"

/-- A Go `[]byte`. -/
abbrev Bytes := List UInt8

/-- The generic store of `internal/dynconfig` as the two roles use it: the
methods `Unmarshal` and `Refresh`, acting on the store's own state `σ` (the
cache file, the in-memory payload, the clock). `Unmarshal` yields the decoded
payload or an error. -/
structure DcDynconfig (σ : Type) (Data : Type) where
  Unmarshal : σ → Except GoError Data × σ
  Refresh : σ → Option GoError × σ

/-! ## Observers -/

/-- An observer, identified by the identity of the interface value that is
the key of the `observers` map. -/
abbrev Observer := Nat

/-- The key set of the Go map `map[Observer]struct{}`. -/
structure ObserverMap where
  keys : List Observer
  nodup : keys.Nodup

/-- The empty map literal `map[Observer]struct{}{}`. -/
def ObserverMap.empty : ObserverMap := ⟨[], List.nodup_nil⟩

/-- The map assignment `m[l] = struct{}{}`. -/
def ObserverMap.insert (m : ObserverMap) (l : Observer) : ObserverMap :=
  if h : l ∈ m.keys then m else ⟨m.keys ++ [l], by
    have hm := m.nodup
    rw [List.nodup_append]
    refine ⟨hm, List.nodup_singleton l, ?_⟩
    intro a ha hb
    rw [List.mem_singleton] at hb
    exact h (hb ▸ ha)⟩

/-- The builtin `delete(m, l)`. -/
def ObserverMap.delete (m : ObserverMap) (l : Observer) : ObserverMap :=
  ⟨m.keys.filter (fun o => o ≠ l), m.nodup.filter _⟩

/-- The order in which a `for k := range m` visits the keys of a map: Go
leaves it unspecified, so it is the `seed`-th permutation of the keys, for
an arbitrary `seed`. -/
def mapRange (seed : Nat) (keys : List Observer) : List Observer :=
  keys.permutations.getD seed keys

/-! ## The refresh loop -/

/-- The case that a `select` of the refresh loop takes when it wakes up: a
tick of the ticker (`<-tick.C`), which fires every `watchInterval`, or the
stop signal (`<-d.done`). -/
inductive Wake where
  | tick
  | done
  deriving DecidableEq, Repr

/-- What `Serve` and its loop have done so far: the number of calls of
`Notify`, the calls of `OnNotify` in order, the errors passed to
`logger.Error`, and the state of the world. -/
structure LoopTrace (σ : Type) (Data : Type) where
  notifies : Nat
  calls : List (Observer × Option Data)
  logged : List GoError
  state : σ
  deriving DecidableEq, Repr

/-- Where a call of `Serve` (or of `watch`) stands once the given wake-ups are
used up: blocked in the `select`, or returned with its result. -/
inductive Progress where
  | blocked
  | returned (err : Option GoError)
  deriving DecidableEq, Repr

/-! ## Scheduler role: `scheduler/config/dynconfig.go` -/

namespace SchedulerConfig

/-- The cache file name `cacheFileName`. -/
def cacheFileName : String := "scheduler"

/-- The period `watchInterval` of the ticker that `Serve` builds, ten seconds
as a `time.Duration` in nanoseconds. -/
def watchInterval : Int := 10 * 1000000000

/-- The message of `managerv1.SeedPeerCluster`: the serialized blob. -/
structure SeedPeerCluster where
  Config : Bytes
  deriving DecidableEq, Repr

/-- The message of `managerv1.SeedPeer` as the code reads it: the advertised
IP, the port (an `int32`) and the pointer to the seed-peer cluster. The slice
`[]*managerv1.SeedPeer` is the list of the messages its elements point to. -/
structure SeedPeer where
  Ip : String
  Port : Int
  SeedPeerCluster : Option SeedPeerCluster := none
  deriving DecidableEq, Repr

/-- The message of `managerv1.SchedulerCluster`: the two serialized blobs. -/
structure SchedulerCluster where
  Config : Bytes
  ClientConfig : Bytes
  deriving DecidableEq, Repr

/-- The message of `managerv1.Scheduler`: the seed-peer list and the pointer
to the scheduler cluster. -/
structure Scheduler where
  SeedPeers : List SeedPeer
  SchedulerCluster : Option SchedulerCluster
  deriving DecidableEq, Repr

/-- The message of `managerv1.Application`, which the code only passes on. -/
structure Application where
  Name : String
  deriving DecidableEq, Repr

/-- The struct `DynconfigData`; `Scheduler` is a pointer, the `nil` slice of
applications is the empty list. -/
structure DynconfigData where
  Scheduler : Option Scheduler
  Applications : List Application
  deriving DecidableEq, Repr

/-- A value of `credentials.TransportCredentials`. -/
structure TransportCredentials where
  name : String
  deriving DecidableEq, Repr

/-- The Go call `insecure.NewCredentials()`. -/
def insecureNewCredentials : TransportCredentials := ⟨"insecure"⟩

/-- A value of `grpc.DialOption`. -/
inductive DialOption where
  | WithTransportCredentials (creds : TransportCredentials)
  deriving DecidableEq, Repr

/-- The struct `resolver.Address` as the code fills it. -/
structure Address where
  ServerName : String
  Addr : String
  deriving DecidableEq, Repr

/-- The struct `dynconfig`. The embedded `dc.Dynconfig` is an interface value
and is `nil` until `NewDynconfig` assigns it; `done` tells whether the channel
is closed. -/
structure dynconfig (σ : Type) where
  Dynconfig : Option (DcDynconfig σ DynconfigData)
  observers : ObserverMap
  done : Bool
  cachePath : String
  transportCredentials : Option TransportCredentials

/-- The type `DynconfigOption`: it may change the store and returns an error. -/
abbrev DynconfigOption (σ : Type) := dynconfig σ → dynconfig σ × Option GoError

/-- The option `WithTransportCredentials`. -/
def WithTransportCredentials {σ : Type} (creds : Option TransportCredentials) :
    DynconfigOption σ :=
  fun d => ({ d with transportCredentials := creds }, none)

/-- The fields of `Config` that this file reads. -/
structure ServerConfig where
  Host : String
  AdvertiseIP : String
  deriving DecidableEq, Repr

/-- The manager section of `Config`; `SchedulerClusterID` is a `uint`. -/
structure ManagerConfig where
  SchedulerClusterID : Nat
  deriving DecidableEq, Repr

/-- The dynconfig section of `Config`; the interval is a `time.Duration`. -/
structure DynConfig where
  RefreshInterval : Int
  deriving DecidableEq, Repr

/-- The struct `Config`. -/
structure Config where
  Server : ServerConfig
  Manager : ManagerConfig
  DynConfig : DynConfig
  deriving DecidableEq, Repr

/-- The enum `managerv1.SourceType`. -/
inductive SourceType where
  | SCHEDULER_SOURCE
  | PEER_SOURCE
  | SEED_PEER_SOURCE
  deriving DecidableEq, Repr

/-- The message `managerv1.GetSchedulerRequest`. -/
structure GetSchedulerRequest where
  SourceType : SourceType
  HostName : String
  Ip : String
  SchedulerClusterId : Nat
  deriving DecidableEq, Repr

/-- The message `managerv1.ListApplicationsRequest`. -/
structure ListApplicationsRequest where
  SourceType : SourceType
  HostName : String
  Ip : String
  deriving DecidableEq, Repr

/-- The message `managerv1.ListApplicationsResponse`. -/
structure ListApplicationsResponse where
  Applications : List Application
  deriving DecidableEq, Repr

/-- The two calls of `managerclient.Client` that the fetcher makes; each
returns the Go pair of a response pointer and an error. -/
structure Client where
  GetScheduler : GetSchedulerRequest → Option Scheduler × Option GoError
  ListApplications : ListApplicationsRequest → Option ListApplicationsResponse × Option GoError

/-- The struct `managerClient`; `config` is a pointer. -/
structure managerClient where
  Client : Client
  config : Option Config

/-- The function `newManagerClient`. -/
def newManagerClient (client : Client) (cfg : Option Config) : managerClient :=
  { Client := client, config := cfg }

/-- The request literal that `managerClient.Get` passes to `GetScheduler`;
the cluster id is converted with `uint64(...)`. -/
def getSchedulerRequest (config : Config) : GetSchedulerRequest :=
  { SourceType := SourceType.SCHEDULER_SOURCE
    HostName := config.Server.Host
    Ip := config.Server.AdvertiseIP
    SchedulerClusterId := config.Manager.SchedulerClusterID % 2 ^ 64 }

/-- The request literal that `managerClient.Get` passes to `ListApplications`. -/
def listApplicationsRequest (config : Config) : ListApplicationsRequest :=
  { SourceType := SourceType.SCHEDULER_SOURCE
    HostName := config.Server.Host
    Ip := config.Server.AdvertiseIP }

/-- The method `managerClient.Get`, the remote fetcher of the scheduler role.
The result is the Go pair `(any, error)`; the `any` holds a `DynconfigData`
or is `nil`. -/
def managerClient.Get (mc : managerClient) : Outcome (Option DynconfigData × Option GoError) :=
  match mc.config with
  | none => Outcome.goPanic nilDereference
  | some config =>
    match mc.Client.GetScheduler (getSchedulerRequest config) with
    | (_, some err) => Outcome.ret (none, some err)
    | (getSchedulerResp, none) =>
      match mc.Client.ListApplications (listApplicationsRequest config) with
      | (_, some err) =>
        if (statusFromError err).2 && (statusFromError err).1 == Code.Unimplemented then
          Outcome.ret (some { Scheduler := getSchedulerResp, Applications := [] }, none)
        else
          Outcome.ret (none, some err)
      | (none, none) => Outcome.goPanic nilDereference
      | (some listApplicationsResp, none) =>
        Outcome.ret (some { Scheduler := getSchedulerResp
                            Applications := listApplicationsResp.Applications }, none)

/-- The loop of `NewDynconfig` over its options: the first option that
returns an error ends the loop with that error. -/
def applyOptions {σ : Type} : List (DynconfigOption σ) → dynconfig σ → dynconfig σ × Option GoError
  | [], d => (d, none)
  | opt :: rest, d =>
    match opt d with
    | (d1, some err) => (d1, some err)
    | (d1, none) => applyOptions rest d1

/-- The function `NewDynconfig`. `filepathJoin` is `filepath.Join`; `dcNew` is
`dc.New`, which may act on the world `σ` (cache file, manager) and returns the
Go pair of a store and an error. -/
def NewDynconfig {σ : Type} (filepathJoin : String → String → String)
    (dcNew : managerClient → String → Int → σ →
      (Option (DcDynconfig σ DynconfigData) × Option GoError) × σ)
    (rawManagerClient : Option Client) (cacheDir : String) (cfg : Option Config)
    (options : List (DynconfigOption σ)) (s : σ) :
    Outcome ((Option (dynconfig σ) × Option GoError) × σ) :=
  let cachePath := filepathJoin cacheDir cacheFileName
  let d : dynconfig σ :=
    { Dynconfig := none
      observers := ObserverMap.empty
      done := false
      cachePath := cachePath
      transportCredentials := none }
  match applyOptions options d with
  | (_, some err) => Outcome.ret ((none, some err), s)
  | (d1, none) =>
    match rawManagerClient with
    | none => Outcome.ret ((some d1, none), s)
    | some raw =>
      match cfg with
      | none => Outcome.goPanic nilDereference
      | some c =>
        match dcNew (newManagerClient raw cfg) cachePath c.DynConfig.RefreshInterval s with
        | ((_, some err), s1) => Outcome.ret ((none, some err), s1)
        | ((client, none), s1) => Outcome.ret ((some { d1 with Dynconfig := client }, none), s1)

/-- The method `Get`: the method `Unmarshal` of the embedded store is called
through the interface value, which panics when that value is `nil`. -/
def Get {σ : Type} (d : dynconfig σ) (s : σ) :
    Outcome ((Option DynconfigData × Option GoError) × σ) :=
  match d.Dynconfig with
  | none => Outcome.goPanic nilDereference
  | some dc =>
    match dc.Unmarshal s with
    | (Except.error err, s1) => Outcome.ret ((none, some err), s1)
    | (Except.ok config, s1) => Outcome.ret ((some config, none), s1)

/-- The method `GetApplications`. -/
def GetApplications {σ : Type} (d : dynconfig σ) (s : σ) :
    Outcome ((List Application × Option GoError) × σ) :=
  match Get d s with
  | Outcome.goPanic r => Outcome.goPanic r
  | Outcome.ret ((_, some err), s1) => Outcome.ret (([], some err), s1)
  | Outcome.ret ((none, none), _) => Outcome.goPanic nilDereference
  | Outcome.ret ((some data, none), s1) => Outcome.ret ((data.Applications, none), s1)

/-- The method `GetSeedPeers`; `data.Scheduler.SeedPeers` dereferences the
scheduler pointer. -/
def GetSeedPeers {σ : Type} (d : dynconfig σ) (s : σ) :
    Outcome ((List SeedPeer × Option GoError) × σ) :=
  match Get d s with
  | Outcome.goPanic r => Outcome.goPanic r
  | Outcome.ret ((_, some err), s1) => Outcome.ret (([], some err), s1)
  | Outcome.ret ((none, none), _) => Outcome.goPanic nilDereference
  | Outcome.ret ((some data, none), s1) =>
    match data.Scheduler with
    | none => Outcome.goPanic nilDereference
    | some scheduler => Outcome.ret ((scheduler.SeedPeers, none), s1)

/-- The method `GetSchedulerClusterConfig`. `Cfg` is the type
`types.SchedulerClusterConfig`, `zero` its zero value and `jsonUnmarshal` the
call of `json.Unmarshal` into a zero-valued `Cfg`. -/
def GetSchedulerClusterConfig {σ Cfg : Type} (jsonUnmarshal : Bytes → Except GoError Cfg)
    (zero : Cfg) (d : dynconfig σ) (s : σ) : Outcome ((Cfg × Option GoError) × σ) :=
  match Get d s with
  | Outcome.goPanic r => Outcome.goPanic r
  | Outcome.ret ((_, some err), s1) => Outcome.ret ((zero, some err), s1)
  | Outcome.ret ((none, none), _) => Outcome.goPanic nilDereference
  | Outcome.ret ((some data, none), s1) =>
    match data.Scheduler with
    | none => Outcome.goPanic nilDereference
    | some scheduler =>
      match scheduler.SchedulerCluster with
      | none => Outcome.ret ((zero, some (errorsNew "invalid scheduler cluster")), s1)
      | some cluster =>
        match jsonUnmarshal cluster.Config with
        | Except.error err => Outcome.ret ((zero, some err), s1)
        | Except.ok config => Outcome.ret ((config, none), s1)

/-- The method `GetSchedulerClusterClientConfig`. `Cfg` is the type
`types.SchedulerClusterClientConfig`. -/
def GetSchedulerClusterClientConfig {σ Cfg : Type}
    (jsonUnmarshal : Bytes → Except GoError Cfg)
    (zero : Cfg) (d : dynconfig σ) (s : σ) : Outcome ((Cfg × Option GoError) × σ) :=
  match Get d s with
  | Outcome.goPanic r => Outcome.goPanic r
  | Outcome.ret ((_, some err), s1) => Outcome.ret ((zero, some err), s1)
  | Outcome.ret ((none, none), _) => Outcome.goPanic nilDereference
  | Outcome.ret ((some data, none), s1) =>
    match data.Scheduler with
    | none => Outcome.goPanic nilDereference
    | some scheduler =>
      match scheduler.SchedulerCluster with
      | none => Outcome.ret ((zero, some (errorsNew "invalid scheduler cluster")), s1)
      | some cluster =>
        match jsonUnmarshal cluster.ClientConfig with
        | Except.error err => Outcome.ret ((zero, some err), s1)
        | Except.ok config => Outcome.ret ((config, none), s1)

/-- The network as one scan of `GetResolveSeedPeerAddrs` meets it.
`FormatIP` is `ip.FormatIP` (the normalised IP, or `none` for `ok = false`).
`GetClient i addr opts` is the error of `healthclient.GetClient` for the
probe of the `i`-th peer of the list (`none`: a client was returned), and
`Check i addr` the error of the health check made with that client. -/
structure Network where
  FormatIP : String → Option String
  GetClient : Nat → String → List DialOption → Option GoError
  Check : Nat → String → Option GoError

/-- The Go call `fmt.Sprintf("%s:%d", ip, port)`. -/
def sprintfAddr (ip : String) (port : Int) : String :=
  ip ++ ":" ++ toString port

/-- The dial options built for every peer from the store's credentials. -/
def dialOptions (transportCredentials : Option TransportCredentials) : List DialOption :=
  match transportCredentials with
  | some creds => [] ++ [DialOption.WithTransportCredentials creds]
  | none => [] ++ [DialOption.WithTransportCredentials insecureNewCredentials]

/-- One iteration of the loop of `GetResolveSeedPeerAddrs` on the peer at
index `i`. The state is the map `addrs` (a missing key reads `false`) and
the slice `resolveAddrs`. -/
def resolveStep (net : Network) (transportCredentials : Option TransportCredentials)
    (st : (String → Bool) × List Address) (entry : Nat × SeedPeer) :
    (String → Bool) × List Address :=
  match net.FormatIP entry.2.Ip with
  | none => st
  | some ip =>
    let addr := sprintfAddr ip entry.2.Port
    match net.GetClient entry.1 addr (dialOptions transportCredentials) with
    | some _ => st
    | none =>
      match net.Check entry.1 addr with
      | some _ => st
      | none =>
        if st.1 addr then st
        else (Function.update st.1 addr true,
              st.2 ++ [{ ServerName := entry.2.Ip, Addr := addr }])

/-- The loop `for _, seedPeer := range seedPeers` of `GetResolveSeedPeerAddrs`,
started with the empty map and the nil slice. -/
def resolveLoop (net : Network) (transportCredentials : Option TransportCredentials)
    (seedPeers : List SeedPeer) : (String → Bool) × List Address :=
  seedPeers.enum.foldl (resolveStep net transportCredentials) (fun _ => false, [])

/-- The method `GetResolveSeedPeerAddrs`. -/
def GetResolveSeedPeerAddrs {σ : Type} (net : Network) (d : dynconfig σ) (s : σ) :
    Outcome ((List Address × Option GoError) × σ) :=
  match GetSeedPeers d s with
  | Outcome.goPanic r => Outcome.goPanic r
  | Outcome.ret ((_, some err), s1) => Outcome.ret (([], some err), s1)
  | Outcome.ret ((seedPeers, none), s1) =>
    let resolveAddrs := (resolveLoop net d.transportCredentials seedPeers).2
    if resolveAddrs.length = 0 then
      Outcome.ret (([], some (errorsNew "can not found available seed peer addresses")), s1)
    else
      Outcome.ret ((resolveAddrs, none), s1)

/-- The method `Register`. -/
def Register {σ : Type} (d : dynconfig σ) (l : Observer) : dynconfig σ :=
  { d with observers := d.observers.insert l }

/-- The method `Deregister`. -/
def Deregister {σ : Type} (d : dynconfig σ) (l : Observer) : dynconfig σ :=
  { d with observers := d.observers.delete l }

/-- The method `Notify`. Besides the returned error the result lists the
calls `o.OnNotify(config)` made, in order, each with its observer and the
payload pointer it received. -/
def Notify {σ : Type} (seed : Nat) (d : dynconfig σ) (s : σ) :
    Outcome ((Option GoError × List (Observer × Option DynconfigData)) × σ) :=
  match Get d s with
  | Outcome.goPanic r => Outcome.goPanic r
  | Outcome.ret ((_, some err), s1) => Outcome.ret ((some err, []), s1)
  | Outcome.ret ((config, none), s1) =>
    Outcome.ret ((none, (mapRange seed d.observers.keys).map (fun o => (o, config))), s1)

/-- The method `Refresh`, with the calls of `OnNotify` made on the way. -/
def Refresh {σ : Type} (seed : Nat) (d : dynconfig σ) (s : σ) :
    Outcome ((Option GoError × List (Observer × Option DynconfigData)) × σ) :=
  match d.Dynconfig with
  | none => Outcome.goPanic nilDereference
  | some dc =>
    match dc.Refresh s with
    | (some err, s1) => Outcome.ret ((some err, []), s1)
    | (none, s1) =>
      match Notify seed d s1 with
      | Outcome.goPanic r => Outcome.goPanic r
      | Outcome.ret ((some err, calls), s2) => Outcome.ret ((some err, calls), s2)
      | Outcome.ret ((none, calls), s2) => Outcome.ret ((none, calls), s2)

/-- The loop `for { select { ... } }` of `Serve`. `wakes` lists, in order, the
cases that the `select` takes; once they are used up the loop is blocked in
the `select`. A tick calls `Notify` and passes its error, if any, to
`logger.Error`; the stop signal returns nil. `seeds k` chooses the iteration
order of the observer map in the call of `Notify` number `k`. -/
def serveLoop {σ : Type} (seeds : Nat → Nat) (d : dynconfig σ) :
    List Wake → LoopTrace σ DynconfigData → Outcome (Progress × LoopTrace σ DynconfigData)
  | [], tr => Outcome.ret (Progress.blocked, tr)
  | Wake.done :: _, tr => Outcome.ret (Progress.returned none, tr)
  | Wake.tick :: rest, tr =>
    match Notify (seeds tr.notifies) d tr.state with
    | Outcome.goPanic r => Outcome.goPanic r
    | Outcome.ret ((some err, calls), s1) =>
      serveLoop seeds d rest
        { notifies := tr.notifies + 1, calls := tr.calls ++ calls
          logged := tr.logged ++ [err], state := s1 }
    | Outcome.ret ((none, calls), s1) =>
      serveLoop seeds d rest
        { notifies := tr.notifies + 1, calls := tr.calls ++ calls
          logged := tr.logged, state := s1 }

/-- The method `Serve`: one call of `Notify`, whose error is returned, and
then the loop. -/
def Serve {σ : Type} (seeds : Nat → Nat) (d : dynconfig σ) (wakes : List Wake) (s : σ) :
    Outcome (Progress × LoopTrace σ DynconfigData) :=
  match Notify (seeds 0) d s with
  | Outcome.goPanic r => Outcome.goPanic r
  | Outcome.ret ((some err, calls), s1) =>
    Outcome.ret (Progress.returned (some err),
      { notifies := 1, calls := calls, logged := [], state := s1 })
  | Outcome.ret ((none, calls), s1) =>
    serveLoop seeds d wakes { notifies := 1, calls := calls, logged := [], state := s1 }

/-- The function `GetSeedPeerClusterConfigBySeedPeer`; `seedPeer` is a
pointer. `Cfg` is the type `types.SeedPeerClusterConfig`. -/
def GetSeedPeerClusterConfigBySeedPeer {Cfg : Type} (jsonUnmarshal : Bytes → Except GoError Cfg)
    (zero : Cfg) (seedPeer : Option SeedPeer) : Cfg × Option GoError :=
  match seedPeer with
  | none => (zero, some (errorsNew "invalid seed peer"))
  | some peer =>
    match peer.SeedPeerCluster with
    | none => (zero, some (errorsNew "invalid seed peer cluster"))
    | some cluster =>
      match jsonUnmarshal cluster.Config with
      | Except.error err => (zero, some err)
      | Except.ok config => (config, none)

end SchedulerConfig

/-! ## CDN role: `cdn/config/dynconfig.go` -/

namespace CdnConfig

/-- The cache file name `cacheFileName`. -/
def cacheFileName : String := "cdn_dynconfig"

/-- The period `watchInterval` of the ticker that `watch` builds, ten seconds
as a `time.Duration` in nanoseconds. -/
def watchInterval : Int := 10 * 1000000000

/-- The struct `SchedulerCluster`. -/
structure SchedulerCluster where
  Config : Bytes
  ClientConfig : Bytes
  deriving DecidableEq, Repr

/-- The struct `DynconfigData` of the CDN role. Its declaration is not in
`dynconfig.go`; the code reads the one field `SchedulerCluster`, compares it
with `nil` and reads its `Config`, so it is a pointer to `SchedulerCluster`. -/
structure DynconfigData where
  SchedulerCluster : Option SchedulerCluster
  deriving DecidableEq, Repr

/-- The fields of `Config` that `NewDynconfig` reads. -/
structure DynConfig where
  RefreshInterval : Int
  deriving DecidableEq, Repr

/-- The struct `Config` of the CDN role. -/
structure Config where
  DynConfig : DynConfig
  deriving DecidableEq, Repr

/-- The struct `managerClient` over a raw client of type `C`. -/
structure managerClient (C : Type) where
  Client : C
  config : Option Config

/-- The function `newManagerClient`. -/
def newManagerClient {C : Type} (client : C) (cfg : Option Config) : managerClient C :=
  { Client := client, config := cfg }

/-- The struct `dynconfig`; the embedded `*dc.Dynconfig` is a pointer. -/
structure dynconfig (σ : Type) where
  Dynconfig : Option (DcDynconfig σ DynconfigData)
  observers : ObserverMap
  done : Bool
  cachePath : String

/-- The function `NewDynconfig`; `dcNew` is `dc.New` applied to the manager
source type and the three options (cache path, expire time, manager client). -/
def NewDynconfig {σ C : Type} (filepathJoin : String → String → String)
    (dcNew : String → Int → managerClient C → σ →
      (Option (DcDynconfig σ DynconfigData) × Option GoError) × σ)
    (rawManagerClient : Option C) (cacheDir : String) (cfg : Option Config) (s : σ) :
    Outcome ((Option (dynconfig σ) × Option GoError) × σ) :=
  let cachePath := filepathJoin cacheDir cacheFileName
  let d : dynconfig σ :=
    { Dynconfig := none
      observers := ObserverMap.empty
      done := false
      cachePath := cachePath }
  match rawManagerClient with
  | none => Outcome.ret ((some d, none), s)
  | some raw =>
    match cfg with
    | none => Outcome.goPanic nilDereference
    | some c =>
      match dcNew cachePath c.DynConfig.RefreshInterval (newManagerClient raw cfg) s with
      | ((_, some err), s1) => Outcome.ret ((none, some err), s1)
      | ((client, none), s1) => Outcome.ret ((some { d with Dynconfig := client }, none), s1)

/-- The method `Get`; the promoted method `Unmarshal` reads the store behind
the embedded pointer, which panics when that pointer is `nil`. -/
def Get {σ : Type} (d : dynconfig σ) (s : σ) :
    Outcome ((Option DynconfigData × Option GoError) × σ) :=
  match d.Dynconfig with
  | none => Outcome.goPanic nilDereference
  | some dc =>
    match dc.Unmarshal s with
    | (Except.error err, s1) => Outcome.ret ((none, some err), s1)
    | (Except.ok config, s1) => Outcome.ret ((some config, none), s1)

/-- The method `GetSchedulerClusterConfig` of the CDN role, returning the
config and the flag `ok`. The guard is `data.SchedulerCluster != nil`, as in
the source. -/
def GetSchedulerClusterConfig {σ Cfg : Type} (jsonUnmarshal : Bytes → Except GoError Cfg)
    (zero : Cfg) (d : dynconfig σ) (s : σ) : Outcome ((Cfg × Bool) × σ) :=
  match Get d s with
  | Outcome.goPanic r => Outcome.goPanic r
  | Outcome.ret ((_, some _), s1) => Outcome.ret ((zero, false), s1)
  | Outcome.ret ((none, none), _) => Outcome.goPanic nilDereference
  | Outcome.ret ((some data, none), s1) =>
    if data.SchedulerCluster.isSome then
      Outcome.ret ((zero, false), s1)
    else
      match data.SchedulerCluster with
      | none => Outcome.goPanic nilDereference
      | some cluster =>
        match jsonUnmarshal cluster.Config with
        | Except.error _ => Outcome.ret ((zero, false), s1)
        | Except.ok config => Outcome.ret ((config, true), s1)

/-- The method `Register`. -/
def Register {σ : Type} (d : dynconfig σ) (l : Observer) : dynconfig σ :=
  { d with observers := d.observers.insert l }

/-- The method `Deregister`. -/
def Deregister {σ : Type} (d : dynconfig σ) (l : Observer) : dynconfig σ :=
  { d with observers := d.observers.delete l }

/-- The method `Notify`, with the calls `o.OnNotify(config)` it makes. -/
def Notify {σ : Type} (seed : Nat) (d : dynconfig σ) (s : σ) :
    Outcome ((Option GoError × List (Observer × Option DynconfigData)) × σ) :=
  match Get d s with
  | Outcome.goPanic r => Outcome.goPanic r
  | Outcome.ret ((_, some err), s1) => Outcome.ret ((some err, []), s1)
  | Outcome.ret ((config, none), s1) =>
    Outcome.ret ((none, (mapRange seed d.observers.keys).map (fun o => (o, config))), s1)

/-- The method `watch`, the loop of the CDN role. `wakes` lists, in order,
the cases that the `select` takes; once they are used up the loop is blocked
in the `select`. The method has no result: `Progress.returned none` says that
it has returned. -/
def watch {σ : Type} (seeds : Nat → Nat) (d : dynconfig σ) :
    List Wake → LoopTrace σ DynconfigData → Outcome (Progress × LoopTrace σ DynconfigData)
  | [], tr => Outcome.ret (Progress.blocked, tr)
  | Wake.done :: _, tr => Outcome.ret (Progress.returned none, tr)
  | Wake.tick :: rest, tr =>
    match Notify (seeds tr.notifies) d tr.state with
    | Outcome.goPanic r => Outcome.goPanic r
    | Outcome.ret ((some err, calls), s1) =>
      watch seeds d rest
        { notifies := tr.notifies + 1, calls := tr.calls ++ calls
          logged := tr.logged ++ [err], state := s1 }
    | Outcome.ret ((none, calls), s1) =>
      watch seeds d rest
        { notifies := tr.notifies + 1, calls := tr.calls ++ calls
          logged := tr.logged, state := s1 }

/-- The method `Serve` of the CDN role with the goroutine it starts. The
first component is the result of `Serve`, which returns right after the first
`Notify`. The second is `none` when the statement `go d.watch()` is not
reached, and otherwise tells where the goroutine stands after the wake-ups
`wakes`. -/
def Serve {σ : Type} (seeds : Nat → Nat) (d : dynconfig σ) (wakes : List Wake) (s : σ) :
    Outcome ((Option GoError × Option Progress) × LoopTrace σ DynconfigData) :=
  match Notify (seeds 0) d s with
  | Outcome.goPanic r => Outcome.goPanic r
  | Outcome.ret ((some err, calls), s1) =>
    Outcome.ret ((some err, none), { notifies := 1, calls := calls, logged := [], state := s1 })
  | Outcome.ret ((none, calls), s1) =>
    match watch seeds d wakes { notifies := 1, calls := calls, logged := [], state := s1 } with
    | Outcome.goPanic r => Outcome.goPanic r
    | Outcome.ret (progress, tr) => Outcome.ret ((none, some progress), tr)

end CdnConfig

/-! ## Vocabulary of the statements -/

namespace SchedulerConfig

/-- The dial address under which the peer `p` at index `i` of the list is
reachable: its IP normalises, a health client is created and the health
check passes. `none` when one of the three fails. -/
def reachableAddr (net : Network) (transportCredentials : Option TransportCredentials)
    (i : Nat) (p : SeedPeer) : Option String :=
  match net.FormatIP p.Ip with
  | none => none
  | some ip =>
    if net.GetClient i (sprintfAddr ip p.Port) (dialOptions transportCredentials) = none
        ∧ net.Check i (sprintfAddr ip p.Port) = none then
      some (sprintfAddr ip p.Port)
    else none

/-- Whether some peer at an index below `i` is reachable under the address `a`. -/
def seenBefore (net : Network) (transportCredentials : Option TransportCredentials)
    (seedPeers : List SeedPeer) (i : Nat) (a : String) : Bool :=
  (List.range i).any (fun j =>
    match seedPeers[j]? with
    | none => false
    | some q => decide (reachableAddr net transportCredentials j q = some a))

/-- The entry that the first-seen rule gives the index `i`: the peer at `i`
is reachable under an address under which no earlier peer is reachable. -/
def firstSeenEntry (net : Network) (transportCredentials : Option TransportCredentials)
    (seedPeers : List SeedPeer) (i : Nat) : Option Address :=
  match seedPeers[i]? with
  | none => none
  | some p =>
    match reachableAddr net transportCredentials i p with
    | none => none
    | some a =>
      if seenBefore net transportCredentials seedPeers i a then none
      else some { ServerName := p.Ip, Addr := a }

end SchedulerConfig

/-- The number of ticks that the loop handles: the ticks among the wake-ups
that come before the first stop signal. -/
def ticksBeforeStop (wakes : List Wake) : Nat :=
  (wakes.takeWhile (fun w => decide (w = Wake.tick))).length

/-! ## Concrete stores and networks -/

namespace Examples

open SchedulerConfig

/-- A store of `internal/dynconfig` over the trivial world that always
decodes the payload `data` and whose refresh succeeds. -/
def staticStore (data : DynconfigData) : DcDynconfig Unit DynconfigData :=
  { Unmarshal := fun s => (Except.ok data, s)
    Refresh := fun s => (none, s) }

/-- A scheduler-role store over `staticStore` with the given seed peers. -/
def storeOf (seedPeers : List SeedPeer) : dynconfig Unit :=
  { Dynconfig := some (staticStore
      { Scheduler := some { SeedPeers := seedPeers, SchedulerCluster := none }
        Applications := [] })
    observers := ObserverMap.empty
    done := false
    cachePath := "/tmp/scheduler"
    transportCredentials := none }

/-- A network on which every IP normalises to itself and every probe passes. -/
def allUp : Network :=
  { FormatIP := fun ip => some ip
    GetClient := fun _ _ _ => none
    Check := fun _ _ => none }

/-- A network on which every health check fails. -/
def allDown : Network :=
  { FormatIP := fun ip => some ip
    GetClient := fun _ _ _ => none
    Check := fun _ _ => some (errorsNew "unreachable") }

/-- A network on which only the probe of the peer at index 0 fails, at the
creation of the health client. -/
def firstDown : Network :=
  { FormatIP := fun ip => some ip
    GetClient := fun i _ _ => if i = 0 then some (errorsNew "dial failed") else none
    Check := fun _ _ => none }

/-- The seed peers of the dedup example. -/
def dupPeers : List SeedPeer :=
  [{ Ip := "10.0.0.1", Port := 80 }, { Ip := "10.0.0.1", Port := 80 },
   { Ip := "10.0.0.2", Port := 80 }]

/-- A scheduler configuration. -/
def schedulerConfig : Config :=
  { Server := { Host := "scheduler-0", AdvertiseIP := "10.0.0.9" }
    Manager := { SchedulerClusterID := 1 }
    DynConfig := { RefreshInterval := 60000000000 } }

/-- The scheduler descriptor that the example managers return. -/
def descriptor : Scheduler :=
  { SeedPeers := dupPeers
    SchedulerCluster := some { Config := [123, 125], ClientConfig := [] } }

/-- An old manager: `GetScheduler` succeeds, `ListApplications` fails with
the gRPC status `Unimplemented`. -/
def oldManager : Client :=
  { GetScheduler := fun _ => (some descriptor, none)
    ListApplications := fun _ =>
      (none, some { msg := "unknown method ListApplications"
                    grpcStatus := some Code.Unimplemented }) }

/-- A manager whose `ListApplications` fails with the gRPC status `Unavailable`. -/
def brokenManager : Client :=
  { GetScheduler := fun _ => (some descriptor, none)
    ListApplications := fun _ =>
      (none, some { msg := "connection refused", grpcStatus := some Code.Unavailable }) }

/-- A manager on which both calls succeed. -/
def newManager : Client :=
  { GetScheduler := fun _ => (some descriptor, none)
    ListApplications := fun _ => (some { Applications := [{ Name := "app" }] }, none) }

/-- A manager whose `GetScheduler` fails. -/
def downManager : Client :=
  { GetScheduler := fun _ => (none, some { msg := "no scheduler", grpcStatus := some Code.NotFound })
    ListApplications := fun _ => (some { Applications := [] }, none) }

/-- A scheduler-role store over `staticStore` with the given descriptor. -/
def storeWith (scheduler : Option Scheduler) : dynconfig Unit :=
  { Dynconfig := some (staticStore { Scheduler := scheduler, Applications := [] })
    observers := ObserverMap.empty
    done := false
    cachePath := "/tmp/scheduler"
    transportCredentials := none }

/-- A store of `internal/dynconfig` whose decoding always fails. -/
def failingStore : DcDynconfig Unit DynconfigData :=
  { Unmarshal := fun s => (Except.error (errorsNew "decode failed"), s)
    Refresh := fun s => (some (errorsNew "fetch failed"), s) }

/-- A scheduler-role store over `failingStore`. -/
def brokenStore : dynconfig Unit :=
  { Dynconfig := some failingStore
    observers := ObserverMap.empty
    done := false
    cachePath := "/tmp/scheduler"
    transportCredentials := none }

/-- A stand-in for `json.Unmarshal` into a config: the empty input is an
error, any other input decodes to its length. -/
def decodeLength (b : Bytes) : Except GoError Nat :=
  if b = [] then Except.error (errorsNew "unexpected end of JSON input")
  else Except.ok b.length

/-- A CDN-role store of `internal/dynconfig` that always decodes `data`. -/
def cdnStaticStore (data : CdnConfig.DynconfigData) : DcDynconfig Unit CdnConfig.DynconfigData :=
  { Unmarshal := fun s => (Except.ok data, s)
    Refresh := fun s => (none, s) }

/-- A CDN-role store over `cdnStaticStore`. -/
def cdnStoreWith (cluster : Option CdnConfig.SchedulerCluster) : CdnConfig.dynconfig Unit :=
  { Dynconfig := some (cdnStaticStore { SchedulerCluster := cluster })
    observers := ObserverMap.empty
    done := false
    cachePath := "/tmp/cdn_dynconfig" }

/-- A stand-in for `filepath.Join` on two clean elements. -/
def joinPath (dir name : String) : String := dir ++ "/" ++ name

/-- A stand-in for `dc.New` of the scheduler role: a store that decodes an
empty payload. -/
def schedulerDcNew (_ : managerClient) (_ : String) (_ : Int) (s : Unit) :
    (Option (DcDynconfig Unit DynconfigData) × Option GoError) × Unit :=
  ((some (staticStore { Scheduler := none, Applications := [] }), none), s)

/-- A stand-in for `dc.New` of the CDN role. -/
def cdnDcNew (_ : String) (_ : Int) (_ : CdnConfig.managerClient Unit) (s : Unit) :
    (Option (DcDynconfig Unit CdnConfig.DynconfigData) × Option GoError) × Unit :=
  ((some (cdnStaticStore { SchedulerCluster := none }), none), s)

/-- A store of `internal/dynconfig` over a counter: decoding succeeds when the
counter is even and fails when it is odd, and every call advances it. -/
def flakyStore : DcDynconfig Nat DynconfigData :=
  { Unmarshal := fun n =>
      (if n % 2 = 0 then Except.ok { Scheduler := none, Applications := [] }
       else Except.error (errorsNew "decode failed"), n + 1)
    Refresh := fun n => (none, n + 1) }

/-- A scheduler-role store over `flakyStore` with the observer 1. -/
def flakyScheduler : dynconfig Nat :=
  Register
    { Dynconfig := some flakyStore
      observers := ObserverMap.empty
      done := false
      cachePath := "/tmp/scheduler"
      transportCredentials := none } 1

/-- The CDN-role counterpart of `flakyStore`. -/
def cdnFlakyStore : DcDynconfig Nat CdnConfig.DynconfigData :=
  { Unmarshal := fun n =>
      (if n % 2 = 0 then Except.ok { SchedulerCluster := none }
       else Except.error (errorsNew "decode failed"), n + 1)
    Refresh := fun n => (none, n + 1) }

/-- A CDN-role store over `cdnFlakyStore` with the observer 1. -/
def flakyCdn : CdnConfig.dynconfig Nat :=
  CdnConfig.Register
    { Dynconfig := some cdnFlakyStore
      observers := ObserverMap.empty
      done := false
      cachePath := "/tmp/cdn_dynconfig" } 1

end Examples

/-! ## The seed-peer resolver -/

namespace SchedulerConfig

theorem reachableAddr_eq_some_iff (net : Network) (c : Option TransportCredentials)
    (i : Nat) (p : SeedPeer) (a : String) :
    reachableAddr net c i p = some a ↔
      ∃ ip, net.FormatIP p.Ip = some ip ∧ a = sprintfAddr ip p.Port ∧
        net.GetClient i a (dialOptions c) = none ∧ net.Check i a = none := by
  unfold reachableAddr
  cases hf : net.FormatIP p.Ip with
  | none => simp
  | some ip =>
    simp only [Option.some.injEq, exists_eq_left']
    constructor
    · intro h
      split at h
      · rename_i hc
        have ha : sprintfAddr ip p.Port = a := Option.some.inj h
        subst ha
        exact ⟨rfl, hc.1, hc.2⟩
      · exact absurd h (by simp)
    · rintro ⟨rfl, h1, h2⟩
      rw [if_pos ⟨h1, h2⟩]

theorem resolveStep_eq (net : Network) (c : Option TransportCredentials)
    (st : (String → Bool) × List Address) (i : Nat) (p : SeedPeer) :
    resolveStep net c st (i, p) =
      match reachableAddr net c i p with
      | none => st
      | some a =>
        if st.1 a then st
        else (Function.update st.1 a true, st.2 ++ [{ ServerName := p.Ip, Addr := a }]) := by
  unfold resolveStep reachableAddr
  cases hf : net.FormatIP p.Ip with
  | none => rfl
  | some ip =>
    simp only
    cases hg : net.GetClient i (sprintfAddr ip p.Port) (dialOptions c) with
    | some e => simp
    | none =>
      cases hk : net.Check i (sprintfAddr ip p.Port) with
      | some e => simp
      | none => simp

theorem seenBefore_iff (net : Network) (c : Option TransportCredentials)
    (peers : List SeedPeer) (i : Nat) (a : String) :
    seenBefore net c peers i a = true ↔
      ∃ j q, j < i ∧ peers[j]? = some q ∧ reachableAddr net c j q = some a := by
  unfold seenBefore
  rw [List.any_eq_true]
  constructor
  · rintro ⟨j, hj, h⟩
    rw [List.mem_range] at hj
    cases hq : peers[j]? with
    | none => rw [hq] at h; exact absurd h (by simp)
    | some q =>
      rw [hq] at h
      exact ⟨j, q, hj, hq, of_decide_eq_true h⟩
  · rintro ⟨j, q, hj, hq, h⟩
    refine ⟨j, List.mem_range.mpr hj, ?_⟩
    rw [hq]
    exact decide_eq_true h

theorem seenBefore_append (net : Network) (c : Option TransportCredentials)
    (l r : List SeedPeer) (i : Nat) (a : String) (hi : i ≤ l.length) :
    seenBefore net c (l ++ r) i a = seenBefore net c l i a := by
  rw [Bool.eq_iff_iff, seenBefore_iff, seenBefore_iff]
  constructor
  · rintro ⟨j, q, hj, hq, h⟩
    rw [List.getElem?_append_left (lt_of_lt_of_le hj hi)] at hq
    exact ⟨j, q, hj, hq, h⟩
  · rintro ⟨j, q, hj, hq, h⟩
    refine ⟨j, q, hj, ?_, h⟩
    rw [List.getElem?_append_left (lt_of_lt_of_le hj hi)]
    exact hq

theorem firstSeenEntry_append (net : Network) (c : Option TransportCredentials)
    (l r : List SeedPeer) (i : Nat) (hi : i < l.length) :
    firstSeenEntry net c (l ++ r) i = firstSeenEntry net c l i := by
  unfold firstSeenEntry
  rw [List.getElem?_append_left hi]
  cases l[i]? with
  | none => rfl
  | some p =>
    simp only
    cases reachableAddr net c i p with
    | none => rfl
    | some a =>
      simp only
      rw [seenBefore_append net c l r i a (le_of_lt hi)]

theorem seenBefore_snoc (net : Network) (c : Option TransportCredentials)
    (l : List SeedPeer) (p : SeedPeer) (a : String) :
    seenBefore net c (l ++ [p]) (l.length + 1) a = true ↔
      seenBefore net c l l.length a = true ∨ reachableAddr net c l.length p = some a := by
  rw [seenBefore_iff, seenBefore_iff]
  constructor
  · rintro ⟨j, q, hj, hq, h⟩
    rcases Nat.lt_succ_iff_lt_or_eq.mp hj with hlt | heq
    · left
      rw [List.getElem?_append_left hlt] at hq
      exact ⟨j, q, hlt, hq, h⟩
    · right
      subst heq
      simp at hq
      subst hq
      exact h
  · rintro (⟨j, q, hj, hq, h⟩ | h)
    · refine ⟨j, q, Nat.lt_succ_of_lt hj, ?_, h⟩
      rw [List.getElem?_append_left hj]
      exact hq
    · exact ⟨l.length, p, Nat.lt_succ_self _, by simp, h⟩

theorem resolveLoop_snoc (net : Network) (c : Option TransportCredentials)
    (l : List SeedPeer) (p : SeedPeer) :
    resolveLoop net c (l ++ [p]) = resolveStep net c (resolveLoop net c l) (l.length, p) := by
  unfold resolveLoop
  rw [List.enum_append, List.foldl_append]
  rfl

/-- The state of the loop after a whole list: the map holds the addresses
under which some peer is reachable, the slice holds the first-seen entries
in index order. -/
theorem resolveLoop_spec (net : Network) (c : Option TransportCredentials)
    (peers : List SeedPeer) :
    (∀ a, (resolveLoop net c peers).1 a = seenBefore net c peers peers.length a) ∧
    (resolveLoop net c peers).2 =
      (List.range peers.length).filterMap (firstSeenEntry net c peers) := by
  induction peers using List.reverseRecOn with
  | nil => exact ⟨fun a => rfl, rfl⟩
  | append_singleton l p ih =>
    obtain ⟨ih1, ih2⟩ := ih
    have hpre : (List.range l.length).filterMap (firstSeenEntry net c (l ++ [p])) =
        (List.range l.length).filterMap (firstSeenEntry net c l) := by
      apply List.filterMap_congr
      intro i hi
      exact firstSeenEntry_append net c l [p] i (List.mem_range.mp hi)
    have hlast : firstSeenEntry net c (l ++ [p]) l.length =
        match reachableAddr net c l.length p with
        | none => none
        | some a => if seenBefore net c l l.length a then none
                    else some { ServerName := p.Ip, Addr := a } := by
      unfold firstSeenEntry
      simp only [List.getElem?_concat_length]
      cases reachableAddr net c l.length p with
      | none => rfl
      | some a =>
        simp only
        rw [seenBefore_append net c l [p] l.length a (le_refl _)]
    rw [resolveLoop_snoc, resolveStep_eq]
    simp only [List.length_append, List.length_singleton, List.range_succ,
      List.filterMap_append, hpre, List.filterMap_cons, List.filterMap_nil, hlast]
    cases hr : reachableAddr net c l.length p with
    | none =>
      simp only [List.append_nil]
      refine ⟨fun a => ?_, ih2⟩
      rw [ih1 a, Bool.eq_iff_iff, seenBefore_snoc, hr]
      simp
    | some b =>
      simp only
      rw [ih1 b]
      cases hs : seenBefore net c l l.length b with
      | true =>
        simp only [if_true, List.append_nil]
        refine ⟨fun a => ?_, ih2⟩
        rw [ih1 a, Bool.eq_iff_iff, seenBefore_snoc, hr]
        constructor
        · exact fun h => Or.inl h
        · rintro (h | h)
          · exact h
          · rw [← Option.some.inj h]; exact hs
      | false =>
        simp only [Bool.false_eq_true, if_false]
        refine ⟨fun a => ?_, by rw [ih2]⟩
        rw [Bool.eq_iff_iff, seenBefore_snoc, hr]
        by_cases hab : a = b
        · subst hab
          simp
        · rw [Function.update_noteq hab, ih1 a]
          constructor
          · exact fun h => Or.inl h
          · rintro (h | h)
            · exact h
            · exact absurd (Option.some.inj h).symm hab

theorem seenBefore_eq_false_iff (net : Network) (c : Option TransportCredentials)
    (peers : List SeedPeer) (i : Nat) (a : String) :
    seenBefore net c peers i a = false ↔
      ∀ k r, k < i → peers[k]? = some r → reachableAddr net c k r ≠ some a := by
  rw [← Bool.not_eq_true, seenBefore_iff]
  constructor
  · intro h k r hk hr hra
    exact h ⟨k, r, hk, hr, hra⟩
  · rintro h ⟨k, r, hk, hr, hra⟩
    exact h k r hk hr hra

theorem firstSeenEntry_eq_some_iff (net : Network) (c : Option TransportCredentials)
    (peers : List SeedPeer) (i : Nat) (x : Address) :
    firstSeenEntry net c peers i = some x ↔
      ∃ p, peers[i]? = some p ∧ reachableAddr net c i p = some x.Addr ∧
        x.ServerName = p.Ip ∧
        ∀ k r, k < i → peers[k]? = some r → reachableAddr net c k r ≠ some x.Addr := by
  unfold firstSeenEntry
  cases hp : peers[i]? with
  | none => simp
  | some p =>
    simp only [Option.some.injEq, exists_eq_left']
    cases hr : reachableAddr net c i p with
    | none => simp
    | some a =>
      simp only [Option.some.injEq]
      cases hs : seenBefore net c peers i a with
      | true =>
        simp only [if_true]
        constructor
        · intro h
          exact absurd h (by simp)
        · rintro ⟨ha, _, hfirst⟩
          subst ha
          rw [seenBefore_iff] at hs
          obtain ⟨k, r, hk, hkr, hra⟩ := hs
          exact absurd hra (hfirst k r hk hkr)
      | false =>
        simp only [Bool.false_eq_true, if_false, Option.some.injEq]
        rw [seenBefore_eq_false_iff] at hs
        constructor
        · intro h
          subst h
          exact ⟨rfl, rfl, hs⟩
        · rintro ⟨ha, hn, _⟩
          cases x
          simp only at ha hn
          subst ha
          subst hn
          rfl

/-- Two indices that the first-seen rule gives the same address are equal. -/
theorem firstSeenEntry_addr_inj (net : Network) (c : Option TransportCredentials)
    (peers : List SeedPeer) (i j : Nat) (x y : Address)
    (hx : firstSeenEntry net c peers i = some x) (hy : firstSeenEntry net c peers j = some y)
    (hxy : x.Addr = y.Addr) : i = j := by
  rw [firstSeenEntry_eq_some_iff] at hx hy
  obtain ⟨p, hp, hrp, _, hfp⟩ := hx
  obtain ⟨q, hq, hrq, _, hfq⟩ := hy
  rcases Nat.lt_trichotomy i j with h | h | h
  · exact absurd (hxy ▸ hrp) (hfq i p h hp)
  · exact h
  · exact absurd (hxy ▸ hrq) (hfp j q h hq)

theorem firstSeen_addr_nodup (net : Network) (c : Option TransportCredentials)
    (peers : List SeedPeer) :
    (((List.range peers.length).filterMap (firstSeenEntry net c peers)).map
      Address.Addr).Nodup := by
  rw [List.map_filterMap]
  apply List.Nodup.filterMap _ (List.nodup_range _)
  intro i j a hi hj
  simp only [Option.mem_def, Option.map_eq_some'] at hi hj
  obtain ⟨x, hx, hxa⟩ := hi
  obtain ⟨y, hy, hya⟩ := hj
  exact firstSeenEntry_addr_inj net c peers i j x y hx hy (hxa.trans hya.symm)

/-- Every address under which some peer is reachable has a first-seen entry. -/
theorem firstSeen_complete (net : Network) (c : Option TransportCredentials)
    (peers : List SeedPeer) (i : Nat) (p : SeedPeer) (a : String)
    (hp : peers[i]? = some p) (hr : reachableAddr net c i p = some a) :
    ∃ x ∈ (List.range peers.length).filterMap (firstSeenEntry net c peers), x.Addr = a := by
  classical
  have hex : ∃ j, ∃ q, peers[j]? = some q ∧ reachableAddr net c j q = some a := ⟨i, p, hp, hr⟩
  obtain ⟨q, hq, hrq⟩ := Nat.find_spec hex
  have hmin : ∀ k r, k < Nat.find hex → peers[k]? = some r →
      reachableAddr net c k r ≠ some a := by
    intro k r hk hkr hra
    exact Nat.find_min hex hk ⟨r, hkr, hra⟩
  have hlt : Nat.find hex < peers.length := by
    by_contra hge
    rw [List.getElem?_eq_none (Nat.le_of_not_lt hge)] at hq
    exact absurd hq (by simp)
  refine ⟨{ ServerName := q.Ip, Addr := a }, ?_, rfl⟩
  rw [List.mem_filterMap]
  refine ⟨Nat.find hex, List.mem_range.mpr hlt, ?_⟩
  rw [firstSeenEntry_eq_some_iff]
  exact ⟨q, hq, hrq, rfl, hmin⟩

/-- What `GetResolveSeedPeerAddrs` returns once `GetSeedPeers` has returned
a list: the first-seen entries, or the error when there is none. -/
theorem GetResolveSeedPeerAddrs_eq {σ : Type} (net : Network) (d : dynconfig σ) (s s1 : σ)
    (seedPeers : List SeedPeer)
    (hget : GetSeedPeers d s = Outcome.ret ((seedPeers, none), s1)) :
    GetResolveSeedPeerAddrs net d s =
      if ((List.range seedPeers.length).filterMap
          (firstSeenEntry net d.transportCredentials seedPeers)).length = 0 then
        Outcome.ret (([], some (errorsNew "can not found available seed peer addresses")), s1)
      else
        Outcome.ret (((List.range seedPeers.length).filterMap
          (firstSeenEntry net d.transportCredentials seedPeers), none), s1) := by
  unfold GetResolveSeedPeerAddrs
  rw [hget]
  simp only
  rw [(resolveLoop_spec net d.transportCredentials seedPeers).2]

theorem reachableAddr_eq_none_iff (net : Network) (c : Option TransportCredentials)
    (i : Nat) (p : SeedPeer) :
    reachableAddr net c i p = none ↔
      (net.FormatIP p.Ip = none ∨ ∃ ip, net.FormatIP p.Ip = some ip ∧
        (net.GetClient i (sprintfAddr ip p.Port) (dialOptions c) ≠ none ∨
          net.Check i (sprintfAddr ip p.Port) ≠ none)) := by
  unfold reachableAddr
  cases hf : net.FormatIP p.Ip with
  | none => simp
  | some ip =>
    simp only [Option.some.injEq, exists_eq_left', false_or, reduceCtorEq]
    by_cases hc : net.GetClient i (sprintfAddr ip p.Port) (dialOptions c) = none
        ∧ net.Check i (sprintfAddr ip p.Port) = none
    · rw [if_pos hc]
      simp [hc.1, hc.2]
    · rw [if_neg hc]
      simp only [true_iff]
      by_contra hn
      push_neg at hn
      exact hc hn

/-- C1. `GetResolveSeedPeerAddrs` deduplicates by dial address in first-seen
order. Whenever `GetSeedPeers` returns the list `seedPeers`, the call returns
a list `addrs` in which no two entries share their `Addr`; the dial address
`ip:port` of every peer whose IP normalises and whose probe succeeds occurs
exactly once among the `Addr`; of two entries the earlier one had its address
first accepted at a smaller index of the list; and `addrs` is the list of the
first-seen entries in index order. -/
theorem GetResolveSeedPeerAddrs_dedup_first_seen {σ : Type} (net : Network)
    (d : dynconfig σ) (s s1 : σ) (seedPeers : List SeedPeer)
    (hget : GetSeedPeers d s = Outcome.ret ((seedPeers, none), s1)) :
    ∃ addrs err, GetResolveSeedPeerAddrs net d s = Outcome.ret ((addrs, err), s1) ∧
      (addrs.map Address.Addr).Nodup ∧
      (∀ i p ip, seedPeers[i]? = some p → net.FormatIP p.Ip = some ip →
        net.GetClient i (sprintfAddr ip p.Port) (dialOptions d.transportCredentials) = none →
        net.Check i (sprintfAddr ip p.Port) = none →
        (addrs.map Address.Addr).count (sprintfAddr ip p.Port) = 1) ∧
      addrs.Pairwise (fun x y => ∃ i j p q, i < j ∧
        seedPeers[i]? = some p ∧ seedPeers[j]? = some q ∧
        reachableAddr net d.transportCredentials i p = some x.Addr ∧
        reachableAddr net d.transportCredentials j q = some y.Addr ∧
        (∀ k r, k < i → seedPeers[k]? = some r →
          reachableAddr net d.transportCredentials k r ≠ some x.Addr) ∧
        (∀ k r, k < j → seedPeers[k]? = some r →
          reachableAddr net d.transportCredentials k r ≠ some y.Addr)) ∧
      addrs = (List.range seedPeers.length).filterMap
        (firstSeenEntry net d.transportCredentials seedPeers) := by
  have heq := GetResolveSeedPeerAddrs_eq net d s s1 seedPeers hget
  have hnd := firstSeen_addr_nodup net d.transportCredentials seedPeers
  have hcount : ∀ i p ip, seedPeers[i]? = some p → net.FormatIP p.Ip = some ip →
      net.GetClient i (sprintfAddr ip p.Port) (dialOptions d.transportCredentials) = none →
      net.Check i (sprintfAddr ip p.Port) = none →
      (((List.range seedPeers.length).filterMap
        (firstSeenEntry net d.transportCredentials seedPeers)).map Address.Addr).count
          (sprintfAddr ip p.Port) = 1 := by
    intro i p ip hp hf hg hc
    have hr : reachableAddr net d.transportCredentials i p = some (sprintfAddr ip p.Port) :=
      (reachableAddr_eq_some_iff _ _ _ _ _).mpr ⟨ip, hf, rfl, hg, hc⟩
    obtain ⟨x, hx, hxa⟩ := firstSeen_complete net d.transportCredentials seedPeers i p _ hp hr
    exact List.count_eq_one_of_mem hnd (List.mem_map.mpr ⟨x, hx, hxa⟩)
  have hpw : ((List.range seedPeers.length).filterMap
      (firstSeenEntry net d.transportCredentials seedPeers)).Pairwise
      (fun x y => ∃ i j p q, i < j ∧
        seedPeers[i]? = some p ∧ seedPeers[j]? = some q ∧
        reachableAddr net d.transportCredentials i p = some x.Addr ∧
        reachableAddr net d.transportCredentials j q = some y.Addr ∧
        (∀ k r, k < i → seedPeers[k]? = some r →
          reachableAddr net d.transportCredentials k r ≠ some x.Addr) ∧
        (∀ k r, k < j → seedPeers[k]? = some r →
          reachableAddr net d.transportCredentials k r ≠ some y.Addr)) := by
    apply List.Pairwise.filterMap _ _ (List.pairwise_lt_range seedPeers.length)
    intro i j hij x hx y hy
    rw [Option.mem_def, firstSeenEntry_eq_some_iff] at hx hy
    obtain ⟨p, hp, hrp, _, hfp⟩ := hx
    obtain ⟨q, hq, hrq, _, hfq⟩ := hy
    exact ⟨i, j, p, q, hij, hp, hq, hrp, hrq, hfp, hfq⟩
  by_cases hlen : ((List.range seedPeers.length).filterMap
      (firstSeenEntry net d.transportCredentials seedPeers)).length = 0
  · rw [if_pos hlen] at heq
    have hnil := List.length_eq_zero.mp hlen
    rw [hnil] at hnd hcount hpw
    exact ⟨[], _, heq, hnd, hcount, hpw, hnil.symm⟩
  · rw [if_neg hlen] at heq
    exact ⟨_, _, heq, hnd, hcount, hpw, rfl⟩

/-- The dedup example of C1: the reachable peers 10.0.0.1:80, 10.0.0.1:80 and
10.0.0.2:80 satisfy the hypothesis and give exactly the two entries
10.0.0.1:80 and 10.0.0.2:80, in that order. -/
theorem GetResolveSeedPeerAddrs_dedup_first_seen_witness :
    GetSeedPeers (Examples.storeOf Examples.dupPeers) () =
      Outcome.ret ((Examples.dupPeers, none), ()) ∧
    GetResolveSeedPeerAddrs Examples.allUp (Examples.storeOf Examples.dupPeers) () =
      Outcome.ret (([{ ServerName := "10.0.0.1", Addr := "10.0.0.1:80" },
                     { ServerName := "10.0.0.2", Addr := "10.0.0.2:80" }], none), ()) ∧
    ∃ addrs err, GetResolveSeedPeerAddrs Examples.allUp (Examples.storeOf Examples.dupPeers) () =
        Outcome.ret ((addrs, err), ()) ∧
      (addrs.map Address.Addr).Nodup ∧
      (∀ i p ip, Examples.dupPeers[i]? = some p → Examples.allUp.FormatIP p.Ip = some ip →
        Examples.allUp.GetClient i (sprintfAddr ip p.Port)
          (dialOptions (Examples.storeOf Examples.dupPeers).transportCredentials) = none →
        Examples.allUp.Check i (sprintfAddr ip p.Port) = none →
        (addrs.map Address.Addr).count (sprintfAddr ip p.Port) = 1) ∧
      addrs.Pairwise (fun x y => ∃ i j p q, i < j ∧
        Examples.dupPeers[i]? = some p ∧ Examples.dupPeers[j]? = some q ∧
        reachableAddr Examples.allUp (Examples.storeOf Examples.dupPeers).transportCredentials
          i p = some x.Addr ∧
        reachableAddr Examples.allUp (Examples.storeOf Examples.dupPeers).transportCredentials
          j q = some y.Addr ∧
        (∀ k r, k < i → Examples.dupPeers[k]? = some r →
          reachableAddr Examples.allUp
            (Examples.storeOf Examples.dupPeers).transportCredentials k r ≠ some x.Addr) ∧
        (∀ k r, k < j → Examples.dupPeers[k]? = some r →
          reachableAddr Examples.allUp
            (Examples.storeOf Examples.dupPeers).transportCredentials k r ≠ some y.Addr)) ∧
      addrs = (List.range Examples.dupPeers.length).filterMap
        (firstSeenEntry Examples.allUp (Examples.storeOf Examples.dupPeers).transportCredentials
          Examples.dupPeers) :=
  ⟨by decide, by decide,
    GetResolveSeedPeerAddrs_dedup_first_seen Examples.allUp (Examples.storeOf Examples.dupPeers)
      () () Examples.dupPeers (by decide)⟩

/-- C2. `GetResolveSeedPeerAddrs` fails exactly when no peer is reachable.
Whenever `GetSeedPeers` returns the list `seedPeers`: if every peer has an IP
that fails normalisation, or fails the creation of its health client or its
health check, the call returns the error with the nil address list; and if
some peer normalises and passes its probe, the call returns no error and a
non-empty list. -/
theorem GetResolveSeedPeerAddrs_error_iff_none_reachable {σ : Type} (net : Network)
    (d : dynconfig σ) (s s1 : σ) (seedPeers : List SeedPeer)
    (hget : GetSeedPeers d s = Outcome.ret ((seedPeers, none), s1)) :
    ((∀ i p, seedPeers[i]? = some p →
        (net.FormatIP p.Ip = none ∨ ∃ ip, net.FormatIP p.Ip = some ip ∧
          (net.GetClient i (sprintfAddr ip p.Port) (dialOptions d.transportCredentials) ≠ none ∨
            net.Check i (sprintfAddr ip p.Port) ≠ none))) →
      GetResolveSeedPeerAddrs net d s =
        Outcome.ret (([], some (errorsNew "can not found available seed peer addresses")), s1)) ∧
    ((∃ i p ip, seedPeers[i]? = some p ∧ net.FormatIP p.Ip = some ip ∧
        net.GetClient i (sprintfAddr ip p.Port) (dialOptions d.transportCredentials) = none ∧
        net.Check i (sprintfAddr ip p.Port) = none) →
      ∃ addrs, GetResolveSeedPeerAddrs net d s = Outcome.ret ((addrs, none), s1) ∧
        addrs ≠ []) := by
  have heq := GetResolveSeedPeerAddrs_eq net d s s1 seedPeers hget
  constructor
  · intro hall
    have hnil : (List.range seedPeers.length).filterMap
        (firstSeenEntry net d.transportCredentials seedPeers) = [] := by
      rw [List.filterMap_eq_nil_iff]
      intro i _
      cases hfs : firstSeenEntry net d.transportCredentials seedPeers i with
      | none => rfl
      | some x =>
        rw [firstSeenEntry_eq_some_iff] at hfs
        obtain ⟨p, hp, hr, _, _⟩ := hfs
        have hnone := (reachableAddr_eq_none_iff net d.transportCredentials i p).mpr (hall i p hp)
        rw [hnone] at hr
        exact absurd hr (by simp)
    rw [hnil] at heq
    simpa using heq
  · rintro ⟨i, p, ip, hp, hf, hg, hc⟩
    have hr : reachableAddr net d.transportCredentials i p = some (sprintfAddr ip p.Port) :=
      (reachableAddr_eq_some_iff _ _ _ _ _).mpr ⟨ip, hf, rfl, hg, hc⟩
    obtain ⟨x, hx, _⟩ := firstSeen_complete net d.transportCredentials seedPeers i p _ hp hr
    have hne : (List.range seedPeers.length).filterMap
        (firstSeenEntry net d.transportCredentials seedPeers) ≠ [] :=
      List.ne_nil_of_mem hx
    have hlen : ¬ ((List.range seedPeers.length).filterMap
        (firstSeenEntry net d.transportCredentials seedPeers)).length = 0 := by
      rw [List.length_eq_zero]
      exact hne
    rw [if_neg hlen] at heq
    exact ⟨_, heq, hne⟩

/-- Both halves of C2 on the three peers of the dedup example: with every
health check failing the call returns the error and the nil list, with every
probe passing it returns no error and a non-empty list. -/
theorem GetResolveSeedPeerAddrs_error_iff_none_reachable_witness :
    GetSeedPeers (Examples.storeOf Examples.dupPeers) () =
      Outcome.ret ((Examples.dupPeers, none), ()) ∧
    GetResolveSeedPeerAddrs Examples.allDown (Examples.storeOf Examples.dupPeers) () =
      Outcome.ret (([], some (errorsNew "can not found available seed peer addresses")), ()) ∧
    ∃ addrs, GetResolveSeedPeerAddrs Examples.allUp (Examples.storeOf Examples.dupPeers) () =
      Outcome.ret ((addrs, none), ()) ∧ addrs ≠ [] :=
  ⟨by decide,
    (GetResolveSeedPeerAddrs_error_iff_none_reachable Examples.allDown
      (Examples.storeOf Examples.dupPeers) () () Examples.dupPeers (by decide)).1
      (fun i p _ => Or.inr ⟨p.Ip, rfl, Or.inr (by simp [Examples.allDown])⟩),
    (GetResolveSeedPeerAddrs_error_iff_none_reachable Examples.allUp
      (Examples.storeOf Examples.dupPeers) () () Examples.dupPeers (by decide)).2
      ⟨0, { Ip := "10.0.0.1", Port := 80 }, "10.0.0.1", by decide, rfl, rfl, rfl⟩⟩

/-- C3. A per-peer failure is skipped and never aborts the scan. An iteration
on a peer whose IP fails normalisation, whose health client cannot be created
or whose health check fails leaves the loop state as it was and the loop goes
on. Whenever `GetSeedPeers` returns the list `seedPeers`, the call returns;
every peer that normalises and passes its probe has its address in the
result, whatever the peers before it did; and every returned entry comes from
a peer of the list that normalised and passed its probe, with
`Addr = "<normalised ip>:<port>"` and `ServerName` the advertised IP of the
first peer of the list reachable under that `Addr`. -/
theorem GetResolveSeedPeerAddrs_skips_failed_peers {σ : Type} (net : Network)
    (d : dynconfig σ) (s s1 : σ) (seedPeers : List SeedPeer)
    (hget : GetSeedPeers d s = Outcome.ret ((seedPeers, none), s1)) :
    (∀ st i p,
      (net.FormatIP p.Ip = none ∨ ∃ ip, net.FormatIP p.Ip = some ip ∧
        (net.GetClient i (sprintfAddr ip p.Port) (dialOptions d.transportCredentials) ≠ none ∨
          net.Check i (sprintfAddr ip p.Port) ≠ none)) →
      resolveStep net d.transportCredentials st (i, p) = st) ∧
    (∀ l p r,
      (net.FormatIP p.Ip = none ∨ ∃ ip, net.FormatIP p.Ip = some ip ∧
        (net.GetClient l.length (sprintfAddr ip p.Port)
            (dialOptions d.transportCredentials) ≠ none ∨
          net.Check l.length (sprintfAddr ip p.Port) ≠ none)) →
      resolveLoop net d.transportCredentials (l ++ p :: r) =
        (List.enumFrom (l.length + 1) r).foldl (resolveStep net d.transportCredentials)
          (resolveLoop net d.transportCredentials l)) ∧
    ∃ addrs err, GetResolveSeedPeerAddrs net d s = Outcome.ret ((addrs, err), s1) ∧
      (∀ i p ip, seedPeers[i]? = some p → net.FormatIP p.Ip = some ip →
        net.GetClient i (sprintfAddr ip p.Port) (dialOptions d.transportCredentials) = none →
        net.Check i (sprintfAddr ip p.Port) = none →
        ∃ x ∈ addrs, x.Addr = sprintfAddr ip p.Port) ∧
      (∀ x ∈ addrs, ∃ i p ip, seedPeers[i]? = some p ∧ net.FormatIP p.Ip = some ip ∧
        net.GetClient i (sprintfAddr ip p.Port) (dialOptions d.transportCredentials) = none ∧
        net.Check i (sprintfAddr ip p.Port) = none ∧
        x.Addr = sprintfAddr ip p.Port ∧ x.ServerName = p.Ip ∧
        ∀ k q, k < i → seedPeers[k]? = some q →
          reachableAddr net d.transportCredentials k q ≠ some x.Addr) := by
  have hskip : ∀ (st : (String → Bool) × List Address) (i : Nat) (p : SeedPeer),
      (net.FormatIP p.Ip = none ∨ ∃ ip, net.FormatIP p.Ip = some ip ∧
        (net.GetClient i (sprintfAddr ip p.Port) (dialOptions d.transportCredentials) ≠ none ∨
          net.Check i (sprintfAddr ip p.Port) ≠ none)) →
      resolveStep net d.transportCredentials st (i, p) = st := by
    intro st i p hfail
    rw [resolveStep_eq, (reachableAddr_eq_none_iff net d.transportCredentials i p).mpr hfail]
  refine ⟨hskip, ?_, ?_⟩
  · intro l p r hfail
    unfold resolveLoop
    rw [List.enum_append, List.foldl_append, List.enumFrom_cons, List.foldl_cons,
      hskip _ _ _ hfail]
  · have heq := GetResolveSeedPeerAddrs_eq net d s s1 seedPeers hget
    have hcomplete : ∀ i p ip, seedPeers[i]? = some p → net.FormatIP p.Ip = some ip →
        net.GetClient i (sprintfAddr ip p.Port) (dialOptions d.transportCredentials) = none →
        net.Check i (sprintfAddr ip p.Port) = none →
        ∃ x ∈ (List.range seedPeers.length).filterMap
          (firstSeenEntry net d.transportCredentials seedPeers),
          x.Addr = sprintfAddr ip p.Port := by
      intro i p ip hp hf hg hc
      exact firstSeen_complete net d.transportCredentials seedPeers i p _ hp
        ((reachableAddr_eq_some_iff _ _ _ _ _).mpr ⟨ip, hf, rfl, hg, hc⟩)
    have hsound : ∀ x ∈ (List.range seedPeers.length).filterMap
        (firstSeenEntry net d.transportCredentials seedPeers),
        ∃ i p ip, seedPeers[i]? = some p ∧ net.FormatIP p.Ip = some ip ∧
          net.GetClient i (sprintfAddr ip p.Port) (dialOptions d.transportCredentials) = none ∧
          net.Check i (sprintfAddr ip p.Port) = none ∧
          x.Addr = sprintfAddr ip p.Port ∧ x.ServerName = p.Ip ∧
          ∀ k q, k < i → seedPeers[k]? = some q →
            reachableAddr net d.transportCredentials k q ≠ some x.Addr := by
      intro x hx
      rw [List.mem_filterMap] at hx
      obtain ⟨i, _, hfs⟩ := hx
      rw [firstSeenEntry_eq_some_iff] at hfs
      obtain ⟨p, hp, hr, hn, hfirst⟩ := hfs
      obtain ⟨ip, hf, ha, hg, hc⟩ := (reachableAddr_eq_some_iff _ _ _ _ _).mp hr
      rw [ha] at hg hc
      exact ⟨i, p, ip, hp, hf, hg, hc, ha, hn, hfirst⟩
    by_cases hlen : ((List.range seedPeers.length).filterMap
        (firstSeenEntry net d.transportCredentials seedPeers)).length = 0
    · rw [if_pos hlen] at heq
      have hnil := List.length_eq_zero.mp hlen
      rw [hnil] at hcomplete hsound
      exact ⟨[], _, heq, hcomplete, hsound⟩
    · rw [if_neg hlen] at heq
      exact ⟨_, _, heq, hcomplete, hsound⟩

/-- C3 on the dedup example with the probe of the first peer failing: the
scan goes on and returns both addresses; `10.0.0.1:80` now comes from the
second peer of the list. -/
theorem GetResolveSeedPeerAddrs_skips_failed_peers_witness :
    GetSeedPeers (Examples.storeOf Examples.dupPeers) () =
      Outcome.ret ((Examples.dupPeers, none), ()) ∧
    GetResolveSeedPeerAddrs Examples.firstDown (Examples.storeOf Examples.dupPeers) () =
      Outcome.ret (([{ ServerName := "10.0.0.1", Addr := "10.0.0.1:80" },
                     { ServerName := "10.0.0.2", Addr := "10.0.0.2:80" }], none), ()) ∧
    resolveStep Examples.firstDown (Examples.storeOf Examples.dupPeers).transportCredentials
      (fun _ => false, []) (0, { Ip := "10.0.0.1", Port := 80 }) = (fun _ => false, []) ∧
    ∃ x ∈ [({ ServerName := "10.0.0.1", Addr := "10.0.0.1:80" } : Address),
           { ServerName := "10.0.0.2", Addr := "10.0.0.2:80" }],
      x.Addr = sprintfAddr "10.0.0.2" 80 := by
  have h := GetResolveSeedPeerAddrs_skips_failed_peers Examples.firstDown
    (Examples.storeOf Examples.dupPeers) () () Examples.dupPeers (by decide)
  obtain ⟨hskip, -, addrs, err, heq, hcomplete, -⟩ := h
  have hres : GetResolveSeedPeerAddrs Examples.firstDown (Examples.storeOf Examples.dupPeers) () =
      Outcome.ret (([{ ServerName := "10.0.0.1", Addr := "10.0.0.1:80" },
                     { ServerName := "10.0.0.2", Addr := "10.0.0.2:80" }], none), ()) := by
    decide
  refine ⟨by decide, hres, ?_, ?_⟩
  · exact hskip _ 0 _ (Or.inr ⟨"10.0.0.1", rfl, Or.inl (by simp [Examples.firstDown])⟩)
  · rw [hres] at heq
    injection heq with heq
    injection heq with heq
    injection heq with heq1 heq2
    rw [heq1]
    exact hcomplete 2 { Ip := "10.0.0.2", Port := 80 } "10.0.0.2" (by decide) rfl rfl rfl

/-! ## The remote fetcher of the scheduler role -/

/-- C4. `managerClient.Get` degrades gracefully only for an unimplemented
`ListApplications`. With a configuration present: if `GetScheduler` fails,
`Get` returns that error and no payload; if `GetScheduler` succeeds and
`ListApplications` fails with the gRPC status `Unimplemented`, `Get` returns
no error and the payload of the `GetScheduler` response with an empty
application list; if `ListApplications` fails with any other error, `Get`
returns that error and no payload; if both succeed, the payload holds the
`GetScheduler` response and the listed applications. -/
theorem managerClient_Get_degrades_only_for_unimplemented (mc : managerClient)
    (config : Config) (hcfg : mc.config = some config) :
    (∀ resp err, mc.Client.GetScheduler (getSchedulerRequest config) = (resp, some err) →
      mc.Get = Outcome.ret (none, some err)) ∧
    (∀ scheduler resp err,
      mc.Client.GetScheduler (getSchedulerRequest config) = (scheduler, none) →
      mc.Client.ListApplications (listApplicationsRequest config) = (resp, some err) →
      err.grpcStatus = some Code.Unimplemented →
      mc.Get = Outcome.ret (some { Scheduler := scheduler, Applications := [] }, none)) ∧
    (∀ scheduler resp err,
      mc.Client.GetScheduler (getSchedulerRequest config) = (scheduler, none) →
      mc.Client.ListApplications (listApplicationsRequest config) = (resp, some err) →
      err.grpcStatus ≠ some Code.Unimplemented →
      mc.Get = Outcome.ret (none, some err)) ∧
    (∀ scheduler resp,
      mc.Client.GetScheduler (getSchedulerRequest config) = (scheduler, none) →
      mc.Client.ListApplications (listApplicationsRequest config) = (some resp, none) →
      mc.Get = Outcome.ret
        (some { Scheduler := scheduler, Applications := resp.Applications }, none)) := by
  refine ⟨?_, ?_, ?_, ?_⟩
  · intro resp err hs
    unfold managerClient.Get
    rw [hcfg]
    simp only [hs]
  · intro scheduler resp err hs hl hu
    unfold managerClient.Get
    rw [hcfg]
    simp only [hs, hl]
    simp [statusFromError, hu]
  · intro scheduler resp err hs hl hu
    unfold managerClient.Get
    rw [hcfg]
    simp only [hs, hl]
    cases hg : err.grpcStatus with
    | none => simp [statusFromError, hg]
    | some c =>
      have hc : c ≠ Code.Unimplemented := fun h => hu (by rw [hg, h])
      simp [statusFromError, hg, hc]
  · intro scheduler resp hs hl
    unfold managerClient.Get
    rw [hcfg]
    simp only [hs, hl]

/-- The four cases of C4 on concrete managers: an old manager without
`ListApplications`, a manager whose `ListApplications` is unavailable, a
manager that answers both calls, and a manager without the scheduler. -/
theorem managerClient_Get_degrades_only_for_unimplemented_witness :
    (newManagerClient Examples.oldManager (some Examples.schedulerConfig)).Get =
      Outcome.ret (some { Scheduler := some Examples.descriptor, Applications := [] }, none) ∧
    (newManagerClient Examples.brokenManager (some Examples.schedulerConfig)).Get =
      Outcome.ret (none, some { msg := "connection refused"
                                grpcStatus := some Code.Unavailable }) ∧
    (newManagerClient Examples.newManager (some Examples.schedulerConfig)).Get =
      Outcome.ret (some { Scheduler := some Examples.descriptor
                          Applications := [{ Name := "app" }] }, none) ∧
    (newManagerClient Examples.downManager (some Examples.schedulerConfig)).Get =
      Outcome.ret (none, some { msg := "no scheduler", grpcStatus := some Code.NotFound }) :=
  ⟨(managerClient_Get_degrades_only_for_unimplemented
      (newManagerClient Examples.oldManager (some Examples.schedulerConfig))
      Examples.schedulerConfig rfl).2.1 _ _ _ rfl rfl rfl,
    (managerClient_Get_degrades_only_for_unimplemented
      (newManagerClient Examples.brokenManager (some Examples.schedulerConfig))
      Examples.schedulerConfig rfl).2.2.1 _ _ _ rfl rfl (by decide),
    (managerClient_Get_degrades_only_for_unimplemented
      (newManagerClient Examples.newManager (some Examples.schedulerConfig))
      Examples.schedulerConfig rfl).2.2.2 _ _ rfl rfl,
    (managerClient_Get_degrades_only_for_unimplemented
      (newManagerClient Examples.downManager (some Examples.schedulerConfig))
      Examples.schedulerConfig rfl).1 _ _ rfl⟩

end SchedulerConfig

/-! ## The observer registry -/

/-- A `range` over a map visits a permutation of its keys. -/
theorem mapRange_perm (seed : Nat) (keys : List Observer) :
    (mapRange seed keys).Perm keys := by
  unfold mapRange
  rw [List.getD_eq_getElem?_getD]
  cases h : keys.permutations[seed]? with
  | none => exact List.Perm.refl _
  | some l =>
    have hmem : l ∈ keys.permutations := List.getElem?_mem h
    exact List.mem_permutations.mp hmem

/-- The calls made by one fan-out over the observers `m` with the payload
`config`: their observers are a permutation of the keys, every key is called
exactly once, and every call carries `config`. -/
theorem fanOut_exactly_once {Data : Type} (seed : Nat) (m : ObserverMap) (config : Data) :
    (((mapRange seed m.keys).map (fun o => (o, config))).map Prod.fst).Perm m.keys ∧
    (∀ o ∈ m.keys,
      (((mapRange seed m.keys).map (fun o => (o, config))).map Prod.fst).count o = 1) ∧
    (∀ c ∈ (mapRange seed m.keys).map (fun o => (o, config)), c.1 ∈ m.keys ∧ c.2 = config) := by
  have hperm := mapRange_perm seed m.keys
  have hmap : ((mapRange seed m.keys).map (fun o => (o, config))).map Prod.fst =
      mapRange seed m.keys := by
    rw [List.map_map]
    exact List.map_id _
  rw [hmap]
  refine ⟨hperm, ?_, ?_⟩
  · intro o ho
    rw [hperm.count_eq]
    exact List.count_eq_one_of_mem m.nodup ho
  · intro c hc
    rw [List.mem_map] at hc
    obtain ⟨o, ho, rfl⟩ := hc
    exact ⟨hperm.mem_iff.mp ho, rfl⟩

/-- C5. `Notify` is all-or-nothing per round, in the scheduler role (store
`d`) and in the CDN role (store `e`), for every iteration order of the
observer map. If `Get` fails, `Notify` returns that error and makes no call
of `OnNotify`. If `Get` succeeds with the payload `data`, `Notify` returns
nil and its calls of `OnNotify` visit every registered observer exactly once
and nobody else, each with that payload. -/
theorem Notify_all_or_nothing {σ τ : Type} (seed : Nat)
    (d : SchedulerConfig.dynconfig σ) (s : σ) (e : CdnConfig.dynconfig τ) (t : τ) :
    (∀ x err s1, SchedulerConfig.Get d s = Outcome.ret ((x, some err), s1) →
      SchedulerConfig.Notify seed d s = Outcome.ret ((some err, []), s1)) ∧
    (∀ data s1, SchedulerConfig.Get d s = Outcome.ret ((some data, none), s1) →
      ∃ calls, SchedulerConfig.Notify seed d s = Outcome.ret ((none, calls), s1) ∧
        (calls.map Prod.fst).Perm d.observers.keys ∧
        (∀ o ∈ d.observers.keys, (calls.map Prod.fst).count o = 1) ∧
        (∀ c ∈ calls, c.1 ∈ d.observers.keys ∧ c.2 = some data)) ∧
    (∀ x err t1, CdnConfig.Get e t = Outcome.ret ((x, some err), t1) →
      CdnConfig.Notify seed e t = Outcome.ret ((some err, []), t1)) ∧
    (∀ data t1, CdnConfig.Get e t = Outcome.ret ((some data, none), t1) →
      ∃ calls, CdnConfig.Notify seed e t = Outcome.ret ((none, calls), t1) ∧
        (calls.map Prod.fst).Perm e.observers.keys ∧
        (∀ o ∈ e.observers.keys, (calls.map Prod.fst).count o = 1) ∧
        (∀ c ∈ calls, c.1 ∈ e.observers.keys ∧ c.2 = some data)) := by
  refine ⟨?_, ?_, ?_, ?_⟩
  · intro x err s1 hget
    unfold SchedulerConfig.Notify
    rw [hget]
  · intro data s1 hget
    refine ⟨(mapRange seed d.observers.keys).map (fun o => (o, some data)), ?_,
      fanOut_exactly_once seed d.observers (some data)⟩
    unfold SchedulerConfig.Notify
    rw [hget]
  · intro x err t1 hget
    unfold CdnConfig.Notify
    rw [hget]
  · intro data t1 hget
    refine ⟨(mapRange seed e.observers.keys).map (fun o => (o, some data)), ?_,
      fanOut_exactly_once seed e.observers (some data)⟩
    unfold CdnConfig.Notify
    rw [hget]

/-- C5 on concrete stores with registered observers: a scheduler-role store
whose `Get` fails, one whose `Get` succeeds, and the same two for the CDN
role. -/
theorem Notify_all_or_nothing_witness :
    SchedulerConfig.Notify 1 (SchedulerConfig.Register Examples.brokenStore 1) () =
      Outcome.ret ((some (errorsNew "decode failed"), []), ()) ∧
    (∃ calls, SchedulerConfig.Notify 1
        (SchedulerConfig.Register (SchedulerConfig.Register (Examples.storeWith none) 1) 2) () =
          Outcome.ret ((none, calls), ()) ∧
      (calls.map Prod.fst).Perm
        (SchedulerConfig.Register (SchedulerConfig.Register (Examples.storeWith none) 1)
          2).observers.keys ∧
      (∀ o ∈ (SchedulerConfig.Register (SchedulerConfig.Register (Examples.storeWith none) 1)
          2).observers.keys, (calls.map Prod.fst).count o = 1) ∧
      (∀ c ∈ calls,
        c.1 ∈ (SchedulerConfig.Register (SchedulerConfig.Register (Examples.storeWith none) 1)
          2).observers.keys ∧
        c.2 = some { Scheduler := none, Applications := [] })) ∧
    (∃ calls, CdnConfig.Notify 1 (CdnConfig.Register (Examples.cdnStoreWith none) 7) () =
        Outcome.ret ((none, calls), ()) ∧
      (calls.map Prod.fst).Perm
        (CdnConfig.Register (Examples.cdnStoreWith none) 7).observers.keys ∧
      (∀ o ∈ (CdnConfig.Register (Examples.cdnStoreWith none) 7).observers.keys,
        (calls.map Prod.fst).count o = 1) ∧
      (∀ c ∈ calls, c.1 ∈ (CdnConfig.Register (Examples.cdnStoreWith none) 7).observers.keys ∧
        c.2 = some { SchedulerCluster := none })) :=
  ⟨(Notify_all_or_nothing 1 (SchedulerConfig.Register Examples.brokenStore 1) ()
      (Examples.cdnStoreWith none) ()).1 none (errorsNew "decode failed") () rfl,
    (Notify_all_or_nothing 1
      (SchedulerConfig.Register (SchedulerConfig.Register (Examples.storeWith none) 1) 2) ()
      (Examples.cdnStoreWith none) ()).2.1 { Scheduler := none, Applications := [] } () rfl,
    (Notify_all_or_nothing 1 Examples.brokenStore ()
      (CdnConfig.Register (Examples.cdnStoreWith none) 7) ()).2.2.2
        { SchedulerCluster := none } () rfl⟩

/-- C6. `Refresh` of the scheduler-role store has atomic fan-out, for every
iteration order of the observer map. If the refresh of the underlying store
fails, `Refresh` returns that error and makes no call of `OnNotify`. Whenever
`Refresh` returns an error, it made no call of `OnNotify`. Whenever `Refresh`
returns nil, its calls of `OnNotify` visit every registered observer exactly
once and nobody else, all with one and the same payload. And `Refresh` does
return nil when the underlying refresh and the following `Get` succeed. -/
theorem Refresh_atomic_fan_out {σ : Type} (seed : Nat) (d : SchedulerConfig.dynconfig σ)
    (s : σ) :
    (∀ dc err s1, d.Dynconfig = some dc → dc.Refresh s = (some err, s1) →
      SchedulerConfig.Refresh seed d s = Outcome.ret ((some err, []), s1)) ∧
    (∀ err calls s2, SchedulerConfig.Refresh seed d s = Outcome.ret ((some err, calls), s2) →
      calls = []) ∧
    (∀ calls s2, SchedulerConfig.Refresh seed d s = Outcome.ret ((none, calls), s2) →
      ∃ data : SchedulerConfig.DynconfigData,
        (calls.map Prod.fst).Perm d.observers.keys ∧
        (∀ o ∈ d.observers.keys, (calls.map Prod.fst).count o = 1) ∧
        (∀ c ∈ calls, c.1 ∈ d.observers.keys ∧ c.2 = some data)) ∧
    (∀ dc s1 data s2, d.Dynconfig = some dc → dc.Refresh s = (none, s1) →
      dc.Unmarshal s1 = (Except.ok data, s2) →
      ∃ calls, SchedulerConfig.Refresh seed d s = Outcome.ret ((none, calls), s2)) := by
  have hcases : ∀ dc, d.Dynconfig = some dc →
      SchedulerConfig.Refresh seed d s =
        match dc.Refresh s with
        | (some err, s1) => Outcome.ret ((some err, []), s1)
        | (none, s1) =>
          match dc.Unmarshal s1 with
          | (Except.error err, s2) => Outcome.ret ((some err, []), s2)
          | (Except.ok config, s2) =>
            Outcome.ret ((none,
              (mapRange seed d.observers.keys).map (fun o => (o, some config))), s2) := by
    intro dc hdc
    unfold SchedulerConfig.Refresh
    rw [hdc]
    simp only
    rcases hr : dc.Refresh s with ⟨_ | err, s1⟩
    · simp only
      unfold SchedulerConfig.Notify SchedulerConfig.Get
      rw [hdc]
      simp only
      rcases hu : dc.Unmarshal s1 with ⟨err | config, s2⟩
      · rfl
      · rfl
    · rfl
  refine ⟨?_, ?_, ?_, ?_⟩
  · intro dc err s1 hdc hr
    rw [hcases dc hdc, hr]
  · intro err calls s2 hret
    cases hdc : d.Dynconfig with
    | none =>
      unfold SchedulerConfig.Refresh at hret
      rw [hdc] at hret
      exact absurd hret (by simp)
    | some dc =>
      rw [hcases dc hdc] at hret
      rcases hr : dc.Refresh s with ⟨_ | err1, s1⟩
      · rw [hr] at hret
        simp only at hret
        rcases hu : dc.Unmarshal s1 with ⟨err2 | config, s3⟩
        · rw [hu] at hret
          simp only [Outcome.ret.injEq, Prod.mk.injEq] at hret
          exact hret.1.2.symm
        · rw [hu] at hret
          simp at hret
      · rw [hr] at hret
        simp only [Outcome.ret.injEq, Prod.mk.injEq] at hret
        exact hret.1.2.symm
  · intro calls s2 hret
    cases hdc : d.Dynconfig with
    | none =>
      unfold SchedulerConfig.Refresh at hret
      rw [hdc] at hret
      exact absurd hret (by simp)
    | some dc =>
      rw [hcases dc hdc] at hret
      rcases hr : dc.Refresh s with ⟨_ | err1, s1⟩
      · rw [hr] at hret
        simp only at hret
        rcases hu : dc.Unmarshal s1 with ⟨err2 | config, s3⟩
        · rw [hu] at hret
          simp at hret
        · rw [hu] at hret
          simp only [Outcome.ret.injEq, Prod.mk.injEq, true_and] at hret
          rw [← hret.1]
          exact ⟨config, fanOut_exactly_once seed d.observers (some config)⟩
      · rw [hr] at hret
        simp at hret
  · intro dc s1 data s2 hdc hr hu
    rw [hcases dc hdc, hr]
    simp only
    rw [hu]
    exact ⟨_, rfl⟩

/-- C6 on concrete stores with registered observers: a store whose
underlying refresh fails and a store on which refresh and `Get` succeed. -/
theorem Refresh_atomic_fan_out_witness :
    SchedulerConfig.Refresh 1 (SchedulerConfig.Register Examples.brokenStore 1) () =
      Outcome.ret ((some (errorsNew "fetch failed"), []), ()) ∧
    ∃ calls, SchedulerConfig.Refresh 1
      (SchedulerConfig.Register (SchedulerConfig.Register (Examples.storeWith none) 1) 2) () =
        Outcome.ret ((none, calls), ()) :=
  ⟨(Refresh_atomic_fan_out 1 (SchedulerConfig.Register Examples.brokenStore 1) ()).1
      Examples.failingStore (errorsNew "fetch failed") () rfl rfl,
    (Refresh_atomic_fan_out 1
      (SchedulerConfig.Register (SchedulerConfig.Register (Examples.storeWith none) 1) 2)
      ()).2.2.2 (Examples.staticStore { Scheduler := none, Applications := [] }) ()
        { Scheduler := none, Applications := [] } () rfl rfl rfl⟩

theorem ObserverMap.eq_of_keys (m n : ObserverMap) (h : m.keys = n.keys) : m = n := by
  cases m
  cases n
  simp only at h
  subst h
  rfl

theorem ObserverMap.insert_keys (m : ObserverMap) (l : Observer) :
    (m.insert l).keys = if l ∈ m.keys then m.keys else m.keys ++ [l] := by
  unfold ObserverMap.insert
  by_cases h : l ∈ m.keys
  · rw [dif_pos h, if_pos h]
  · rw [dif_neg h, if_neg h]

theorem ObserverMap.mem_insert (m : ObserverMap) (l o : Observer) :
    o ∈ (m.insert l).keys ↔ o = l ∨ o ∈ m.keys := by
  rw [ObserverMap.insert_keys]
  by_cases h : l ∈ m.keys
  · rw [if_pos h]
    constructor
    · exact fun ho => Or.inr ho
    · rintro (rfl | ho)
      · exact h
      · exact ho
  · rw [if_neg h, List.mem_append, List.mem_singleton]
    exact or_comm

theorem ObserverMap.mem_delete (m : ObserverMap) (l o : Observer) :
    o ∈ (m.delete l).keys ↔ o ≠ l ∧ o ∈ m.keys := by
  unfold ObserverMap.delete
  simp only [List.mem_filter, decide_eq_true_eq]
  exact and_comm

theorem ObserverMap.insert_insert (m : ObserverMap) (l : Observer) :
    (m.insert l).insert l = m.insert l := by
  apply ObserverMap.eq_of_keys
  rw [ObserverMap.insert_keys (m.insert l) l,
    if_pos ((ObserverMap.mem_insert m l l).mpr (Or.inl rfl))]

theorem ObserverMap.delete_delete (m : ObserverMap) (l : Observer) :
    (m.delete l).delete l = m.delete l := by
  apply ObserverMap.eq_of_keys
  unfold ObserverMap.delete
  simp only [List.filter_filter, Bool.and_self]

theorem ObserverMap.delete_of_not_mem (m : ObserverMap) (l : Observer) (h : l ∉ m.keys) :
    m.delete l = m := by
  apply ObserverMap.eq_of_keys
  unfold ObserverMap.delete
  simp only
  rw [List.filter_eq_self]
  intro o ho
  exact decide_eq_true (fun hol => h (hol ▸ ho))

/-- C7. `Register` and `Deregister` are idempotent set operations on the
observer set of the scheduler-role store. For every store `d` and observers
`o` and `p ≠ o`: registering `o` twice leaves the store that registering it
once leaves, and `o` is then a key exactly once; deregistering `o` twice
leaves the store that deregistering it once leaves, and `o` is then no key;
deregistering a non-member leaves the store unchanged; and neither operation
on `o` changes whether `p` is a key. Both are total and return no error. -/
theorem Register_Deregister_idempotent {σ : Type} (d : SchedulerConfig.dynconfig σ)
    (o p : Observer) (hp : p ≠ o) :
    SchedulerConfig.Register (SchedulerConfig.Register d o) o = SchedulerConfig.Register d o ∧
    (SchedulerConfig.Register d o).observers.keys.count o = 1 ∧
    SchedulerConfig.Deregister (SchedulerConfig.Deregister d o) o =
      SchedulerConfig.Deregister d o ∧
    o ∉ (SchedulerConfig.Deregister d o).observers.keys ∧
    (o ∉ d.observers.keys → SchedulerConfig.Deregister d o = d) ∧
    (p ∈ (SchedulerConfig.Register d o).observers.keys ↔ p ∈ d.observers.keys) ∧
    (p ∈ (SchedulerConfig.Deregister d o).observers.keys ↔ p ∈ d.observers.keys) := by
  refine ⟨?_, ?_, ?_, ?_, ?_, ?_, ?_⟩
  · unfold SchedulerConfig.Register
    simp only [ObserverMap.insert_insert]
  · exact List.count_eq_one_of_mem (d.observers.insert o).nodup
      ((ObserverMap.mem_insert d.observers o o).mpr (Or.inl rfl))
  · unfold SchedulerConfig.Deregister
    simp only [ObserverMap.delete_delete]
  · intro h
    exact ((ObserverMap.mem_delete d.observers o o).mp h).1 rfl
  · intro h
    unfold SchedulerConfig.Deregister
    rw [ObserverMap.delete_of_not_mem d.observers o h]
  · constructor
    · intro h
      rcases (ObserverMap.mem_insert d.observers o p).mp h with h1 | h1
      · exact absurd h1 hp
      · exact h1
    · exact fun h => (ObserverMap.mem_insert d.observers o p).mpr (Or.inr h)
  · constructor
    · exact fun h => ((ObserverMap.mem_delete d.observers o p).mp h).2
    · exact fun h => (ObserverMap.mem_delete d.observers o p).mpr ⟨hp, h⟩

/-- C7 on a store that holds the observer 2: the observers 1 and 2 are
distinct, 1 is not registered, and deregistering 1 leaves the store as it is. -/
theorem Register_Deregister_idempotent_witness :
    (2 : Observer) ≠ 1 ∧
    (1 : Observer) ∉ (SchedulerConfig.Register (Examples.storeWith none) 2).observers.keys ∧
    SchedulerConfig.Deregister (SchedulerConfig.Register (Examples.storeWith none) 2) 1 =
      SchedulerConfig.Register (Examples.storeWith none) 2 ∧
    (SchedulerConfig.Register (SchedulerConfig.Register (Examples.storeWith none) 2)
      1).observers.keys.count 1 = 1 ∧
    (2 ∈ (SchedulerConfig.Deregister (SchedulerConfig.Register (Examples.storeWith none) 2)
      1).observers.keys ↔ 2 ∈ (SchedulerConfig.Register (Examples.storeWith none)
      2).observers.keys) :=
  ⟨by decide, by decide,
    (Register_Deregister_idempotent (SchedulerConfig.Register (Examples.storeWith none) 2)
      1 2 (by decide)).2.2.2.2.1 (by decide),
    (Register_Deregister_idempotent (SchedulerConfig.Register (Examples.storeWith none) 2)
      1 2 (by decide)).2.1,
    (Register_Deregister_idempotent (SchedulerConfig.Register (Examples.storeWith none) 2)
      1 2 (by decide)).2.2.2.2.2.2⟩

/-! ## The typed getters -/

/-- What the CDN-role `GetSchedulerClusterConfig` does on every payload that
`Get` returns: a present scheduler cluster gives the zero config with
`ok = false` whatever its blob holds, an absent one is dereferenced. -/
theorem cdn_GetSchedulerClusterConfig_cases {σ Cfg : Type}
    (jsonUnmarshal : Bytes → Except GoError Cfg) (zero : Cfg) (d : CdnConfig.dynconfig σ)
    (s s1 : σ) (data : CdnConfig.DynconfigData)
    (hget : CdnConfig.Get d s = Outcome.ret ((some data, none), s1)) :
    (∀ cluster, data.SchedulerCluster = some cluster →
      CdnConfig.GetSchedulerClusterConfig jsonUnmarshal zero d s =
        Outcome.ret ((zero, false), s1)) ∧
    (data.SchedulerCluster = none →
      CdnConfig.GetSchedulerClusterConfig jsonUnmarshal zero d s =
        Outcome.goPanic nilDereference) := by
  constructor
  · intro cluster hc
    unfold CdnConfig.GetSchedulerClusterConfig
    rw [hget]
    simp [hc]
  · intro hc
    unfold CdnConfig.GetSchedulerClusterConfig
    rw [hget]
    simp [hc]

/-- C8, the code at the failing inputs. On a payload whose scheduler cluster
is present with the blob `{}`, which the decoder accepts, the CDN-role
`GetSchedulerClusterConfig` returns the zero config with `ok = false`, not
the decoded config with `ok = true`; on a payload whose scheduler cluster is
absent it panics on the nil pointer, instead of returning `ok = false`. The
same happens for every decoder, zero config and present cluster: the getter
never returns `ok = true`. -/
theorem cdn_GetSchedulerClusterConfig_guard_inverted :
    Examples.decodeLength [123, 125] = Except.ok 2 ∧
    CdnConfig.GetSchedulerClusterConfig Examples.decodeLength 0
      (Examples.cdnStoreWith (some { Config := [123, 125], ClientConfig := [] })) () =
        Outcome.ret ((0, false), ()) ∧
    CdnConfig.GetSchedulerClusterConfig Examples.decodeLength 0
      (Examples.cdnStoreWith none) () = Outcome.goPanic nilDereference ∧
    (∀ (Cfg : Type) (jsonUnmarshal : Bytes → Except GoError Cfg) (zero : Cfg)
        (cluster : CdnConfig.SchedulerCluster),
      CdnConfig.GetSchedulerClusterConfig jsonUnmarshal zero
        (Examples.cdnStoreWith (some cluster)) () = Outcome.ret ((zero, false), ())) ∧
    (∀ (Cfg : Type) (jsonUnmarshal : Bytes → Except GoError Cfg) (zero : Cfg),
      CdnConfig.GetSchedulerClusterConfig jsonUnmarshal zero
        (Examples.cdnStoreWith none) () = Outcome.goPanic nilDereference) :=
  ⟨rfl, by decide, by decide, fun _ _ _ _ => rfl, fun _ _ _ => rfl⟩

/-- C9. The scheduler-role getters `GetSchedulerClusterConfig` and
`GetSchedulerClusterClientConfig` fail exactly when their sub-config is absent
or malformed. Each returns the error of `Get` and the zero config if `Get`
fails; and on a payload with a present scheduler descriptor each returns the
error `invalid scheduler cluster` and the zero config if the scheduler
cluster is absent, the decode error and the zero config if its blob (`Config`,
respectively `ClientConfig`) does not decode, and the decoded config with no
error otherwise. -/
theorem scheduler_cluster_getters_fail_iff_absent_or_malformed {σ Cfg ClientCfg : Type}
    (jsonUnmarshal : Bytes → Except GoError Cfg) (zero : Cfg)
    (jsonUnmarshalClient : Bytes → Except GoError ClientCfg) (zeroClient : ClientCfg)
    (d : SchedulerConfig.dynconfig σ) (s : σ) :
    (∀ x err s1, SchedulerConfig.Get d s = Outcome.ret ((x, some err), s1) →
      SchedulerConfig.GetSchedulerClusterConfig jsonUnmarshal zero d s =
        Outcome.ret ((zero, some err), s1) ∧
      SchedulerConfig.GetSchedulerClusterClientConfig jsonUnmarshalClient zeroClient d s =
        Outcome.ret ((zeroClient, some err), s1)) ∧
    (∀ data scheduler s1, SchedulerConfig.Get d s = Outcome.ret ((some data, none), s1) →
      data.Scheduler = some scheduler →
      (scheduler.SchedulerCluster = none →
        SchedulerConfig.GetSchedulerClusterConfig jsonUnmarshal zero d s =
          Outcome.ret ((zero, some (errorsNew "invalid scheduler cluster")), s1) ∧
        SchedulerConfig.GetSchedulerClusterClientConfig jsonUnmarshalClient zeroClient d s =
          Outcome.ret ((zeroClient, some (errorsNew "invalid scheduler cluster")), s1)) ∧
      (∀ cluster, scheduler.SchedulerCluster = some cluster →
        (∀ err, jsonUnmarshal cluster.Config = Except.error err →
          SchedulerConfig.GetSchedulerClusterConfig jsonUnmarshal zero d s =
            Outcome.ret ((zero, some err), s1)) ∧
        (∀ config, jsonUnmarshal cluster.Config = Except.ok config →
          SchedulerConfig.GetSchedulerClusterConfig jsonUnmarshal zero d s =
            Outcome.ret ((config, none), s1)) ∧
        (∀ err, jsonUnmarshalClient cluster.ClientConfig = Except.error err →
          SchedulerConfig.GetSchedulerClusterClientConfig jsonUnmarshalClient zeroClient d s =
            Outcome.ret ((zeroClient, some err), s1)) ∧
        (∀ config, jsonUnmarshalClient cluster.ClientConfig = Except.ok config →
          SchedulerConfig.GetSchedulerClusterClientConfig jsonUnmarshalClient zeroClient d s =
            Outcome.ret ((config, none), s1)))) := by
  constructor
  · intro x err s1 hget
    unfold SchedulerConfig.GetSchedulerClusterConfig
      SchedulerConfig.GetSchedulerClusterClientConfig
    rw [hget]
    cases x <;> exact ⟨rfl, rfl⟩
  · intro data scheduler s1 hget hsch
    unfold SchedulerConfig.GetSchedulerClusterConfig
      SchedulerConfig.GetSchedulerClusterClientConfig
    rw [hget]
    simp only [hsch]
    constructor
    · intro hnone
      simp [hnone]
    · intro cluster hsome
      simp only [hsome]
      refine ⟨?_, ?_, ?_, ?_⟩
      · intro err he
        rw [he]
      · intro config he
        rw [he]
      · intro err he
        rw [he]
      · intro config he
        rw [he]

/-- C9 on concrete stores: a store whose `Get` fails, a payload without a
scheduler cluster, and a payload whose cluster has the `Config` blob `{}`
(decoded) and an empty `ClientConfig` blob (malformed). -/
theorem scheduler_cluster_getters_fail_iff_absent_or_malformed_witness :
    SchedulerConfig.GetSchedulerClusterConfig Examples.decodeLength 0 Examples.brokenStore () =
      Outcome.ret ((0, some (errorsNew "decode failed")), ()) ∧
    SchedulerConfig.GetSchedulerClusterClientConfig Examples.decodeLength 0
      (Examples.storeWith (some { SeedPeers := [], SchedulerCluster := none })) () =
        Outcome.ret ((0, some (errorsNew "invalid scheduler cluster")), ()) ∧
    SchedulerConfig.GetSchedulerClusterConfig Examples.decodeLength 0
      (Examples.storeWith (some Examples.descriptor)) () = Outcome.ret ((2, none), ()) ∧
    SchedulerConfig.GetSchedulerClusterClientConfig Examples.decodeLength 0
      (Examples.storeWith (some Examples.descriptor)) () =
        Outcome.ret ((0, some (errorsNew "unexpected end of JSON input")), ()) :=
  ⟨((scheduler_cluster_getters_fail_iff_absent_or_malformed Examples.decodeLength 0
      Examples.decodeLength 0 Examples.brokenStore ()).1 none (errorsNew "decode failed") ()
        rfl).1,
    (((scheduler_cluster_getters_fail_iff_absent_or_malformed Examples.decodeLength 0
      Examples.decodeLength 0
      (Examples.storeWith (some { SeedPeers := [], SchedulerCluster := none })) ()).2
        { Scheduler := some { SeedPeers := [], SchedulerCluster := none }, Applications := [] }
        { SeedPeers := [], SchedulerCluster := none } () rfl rfl).1 rfl).2,
    (((scheduler_cluster_getters_fail_iff_absent_or_malformed Examples.decodeLength 0
      Examples.decodeLength 0 (Examples.storeWith (some Examples.descriptor)) ()).2
        { Scheduler := some Examples.descriptor, Applications := [] }
        Examples.descriptor () rfl rfl).2
        { Config := [123, 125], ClientConfig := [] } rfl).2.1 2 rfl,
    (((scheduler_cluster_getters_fail_iff_absent_or_malformed Examples.decodeLength 0
      Examples.decodeLength 0 (Examples.storeWith (some Examples.descriptor)) ()).2
        { Scheduler := some Examples.descriptor, Applications := [] }
        Examples.descriptor () rfl rfl).2
        { Config := [123, 125], ClientConfig := [] } rfl).2.2.1
        (errorsNew "unexpected end of JSON input") rfl⟩

/-! ## A store constructed without a manager client -/

/-- C10 fails as stated. With a nil manager client, no option and a config,
`NewDynconfig` of the scheduler role returns a store and no error, and on that
store `Get`, `Notify` and `Refresh` panic on the nil embedded store: none of
them returns a value or an error. The same holds for `Get` and `Notify` of
the CDN role. -/
theorem NewDynconfig_nil_client_Get_panics :
    (∃ d : SchedulerConfig.dynconfig Unit,
      SchedulerConfig.NewDynconfig Examples.joinPath Examples.schedulerDcNew none "/var/cache"
        (some Examples.schedulerConfig) [] () = Outcome.ret ((some d, none), ()) ∧
      SchedulerConfig.Get d () = Outcome.goPanic nilDereference ∧
      SchedulerConfig.Notify 0 d () = Outcome.goPanic nilDereference ∧
      SchedulerConfig.Refresh 0 d () = Outcome.goPanic nilDereference ∧
      (¬ ∃ r, SchedulerConfig.Get d () = Outcome.ret r) ∧
      (¬ ∃ r, SchedulerConfig.Notify 0 d () = Outcome.ret r) ∧
      (¬ ∃ r, SchedulerConfig.Refresh 0 d () = Outcome.ret r)) ∧
    (∃ e : CdnConfig.dynconfig Unit,
      CdnConfig.NewDynconfig Examples.joinPath Examples.cdnDcNew (none : Option Unit)
        "/var/cache" (some { DynConfig := { RefreshInterval := 60000000000 } }) () =
          Outcome.ret ((some e, none), ()) ∧
      CdnConfig.Get e () = Outcome.goPanic nilDereference ∧
      CdnConfig.Notify 0 e () = Outcome.goPanic nilDereference ∧
      (¬ ∃ r, CdnConfig.Get e () = Outcome.ret r) ∧
      (¬ ∃ r, CdnConfig.Notify 0 e () = Outcome.ret r)) := by
  refine ⟨⟨_, rfl, rfl, rfl, rfl, ?_, ?_, ?_⟩, ⟨_, rfl, rfl, rfl, ?_, ?_⟩⟩
  · rintro ⟨r, hr⟩
    exact Outcome.noConfusion hr
  · rintro ⟨r, hr⟩
    exact Outcome.noConfusion hr
  · rintro ⟨r, hr⟩
    exact Outcome.noConfusion hr
  · rintro ⟨r, hr⟩
    exact Outcome.noConfusion hr
  · rintro ⟨r, hr⟩
    exact Outcome.noConfusion hr

/-- C10 as amended. With a nil manager client `NewDynconfig` never calls
`dc.New` and leaves the world as it is, for every cache directory and config.
In the scheduler role it returns the store that its options leave and no
error when every option returns nil, and the error of the first failing
option and no store otherwise; with the option `WithTransportCredentials`,
or none, the embedded store of the result is nil and its observer set is
empty. In the CDN role it returns such a store and no error. `Register` and
`Deregister` work on that store in memory. -/
theorem NewDynconfig_nil_client_bare_store {σ C : Type}
    (filepathJoin : String → String → String)
    (dcNew : SchedulerConfig.managerClient → String → Int → σ →
      (Option (DcDynconfig σ SchedulerConfig.DynconfigData) × Option GoError) × σ)
    (cdnDcNew : String → Int → CdnConfig.managerClient C → σ →
      (Option (DcDynconfig σ CdnConfig.DynconfigData) × Option GoError) × σ)
    (cacheDir : String) (cfg : Option SchedulerConfig.Config) (cdnCfg : Option CdnConfig.Config)
    (options : List (SchedulerConfig.DynconfigOption σ)) (s : σ) :
    (∀ d1, SchedulerConfig.applyOptions options
        { Dynconfig := none, observers := ObserverMap.empty, done := false
          cachePath := filepathJoin cacheDir SchedulerConfig.cacheFileName
          transportCredentials := none } = (d1, none) →
      SchedulerConfig.NewDynconfig filepathJoin dcNew none cacheDir cfg options s =
        Outcome.ret ((some d1, none), s)) ∧
    (∀ d1 err, SchedulerConfig.applyOptions options
        { Dynconfig := none, observers := ObserverMap.empty, done := false
          cachePath := filepathJoin cacheDir SchedulerConfig.cacheFileName
          transportCredentials := none } = (d1, some err) →
      SchedulerConfig.NewDynconfig filepathJoin dcNew none cacheDir cfg options s =
        Outcome.ret ((none, some err), s)) ∧
    SchedulerConfig.NewDynconfig filepathJoin dcNew none cacheDir cfg [] s =
      Outcome.ret ((some
        { Dynconfig := none, observers := ObserverMap.empty, done := false
          cachePath := filepathJoin cacheDir SchedulerConfig.cacheFileName
          transportCredentials := none }, none), s) ∧
    (∀ creds, SchedulerConfig.NewDynconfig filepathJoin dcNew none cacheDir cfg
        [SchedulerConfig.WithTransportCredentials creds] s =
      Outcome.ret ((some
        { Dynconfig := none, observers := ObserverMap.empty, done := false
          cachePath := filepathJoin cacheDir SchedulerConfig.cacheFileName
          transportCredentials := creds }, none), s)) ∧
    CdnConfig.NewDynconfig filepathJoin cdnDcNew none cacheDir cdnCfg s =
      Outcome.ret ((some
        { Dynconfig := none, observers := ObserverMap.empty, done := false
          cachePath := filepathJoin cacheDir CdnConfig.cacheFileName }, none), s) ∧
    (∀ o : Observer,
      (SchedulerConfig.Register
        ({ Dynconfig := none, observers := ObserverMap.empty, done := false
           cachePath := filepathJoin cacheDir SchedulerConfig.cacheFileName
           transportCredentials := none } : SchedulerConfig.dynconfig σ) o).observers.keys = [o] ∧
      (SchedulerConfig.Deregister (SchedulerConfig.Register
        ({ Dynconfig := none, observers := ObserverMap.empty, done := false
           cachePath := filepathJoin cacheDir SchedulerConfig.cacheFileName
           transportCredentials := none } : SchedulerConfig.dynconfig σ) o) o).observers.keys
        = []) := by
  refine ⟨?_, ?_, rfl, fun _ => rfl, rfl, ?_⟩
  · intro d1 h
    unfold SchedulerConfig.NewDynconfig
    simp only [h]
  · intro d1 err h
    unfold SchedulerConfig.NewDynconfig
    simp only [h]
  · intro o
    constructor
    · rfl
    · simp [SchedulerConfig.Deregister, SchedulerConfig.Register, ObserverMap.delete,
        ObserverMap.insert, ObserverMap.empty]

/-- C10 as amended, on a call with the option `WithTransportCredentials`:
the options return nil and the store is returned without an embedded store. -/
theorem NewDynconfig_nil_client_bare_store_witness :
    SchedulerConfig.applyOptions
      [SchedulerConfig.WithTransportCredentials (some { name := "tls" })]
      ({ Dynconfig := none, observers := ObserverMap.empty, done := false
         cachePath := Examples.joinPath "/var/cache" SchedulerConfig.cacheFileName
         transportCredentials := none } : SchedulerConfig.dynconfig Unit) =
      ({ Dynconfig := none, observers := ObserverMap.empty, done := false
         cachePath := "/var/cache/scheduler"
         transportCredentials := some { name := "tls" } }, none) ∧
    SchedulerConfig.NewDynconfig Examples.joinPath Examples.schedulerDcNew none "/var/cache"
      none [SchedulerConfig.WithTransportCredentials (some { name := "tls" })] () =
      Outcome.ret ((some
        { Dynconfig := none, observers := ObserverMap.empty, done := false
          cachePath := "/var/cache/scheduler"
          transportCredentials := some { name := "tls" } }, none), ()) :=
  ⟨rfl,
    (NewDynconfig_nil_client_bare_store (C := Unit) Examples.joinPath Examples.schedulerDcNew
      Examples.cdnDcNew "/var/cache" none none
      [SchedulerConfig.WithTransportCredentials (some { name := "tls" })] ()).1 _ rfl⟩

/-! ## The refresh loop of `Serve` -/

/-- On a store with an embedded store, `Notify` of the scheduler role returns. -/
theorem SchedulerConfig.Notify_returns {σ : Type} (d : SchedulerConfig.dynconfig σ)
    (dc : DcDynconfig σ SchedulerConfig.DynconfigData) (hdc : d.Dynconfig = some dc)
    (seed : Nat) (s : σ) :
    ∃ err calls s1, SchedulerConfig.Notify seed d s = Outcome.ret ((err, calls), s1) := by
  unfold SchedulerConfig.Notify SchedulerConfig.Get
  rw [hdc]
  simp only
  rcases dc.Unmarshal s with ⟨err | config, s1⟩
  · exact ⟨_, _, _, rfl⟩
  · exact ⟨_, _, _, rfl⟩

/-- A call of `Notify` of the scheduler role that returns had an embedded
store to go through. -/
theorem SchedulerConfig.store_of_Notify_returns {σ : Type} (d : SchedulerConfig.dynconfig σ)
    (seed : Nat) (s : σ)
    (r : (Option GoError × List (Observer × Option SchedulerConfig.DynconfigData)) × σ)
    (h : SchedulerConfig.Notify seed d s = Outcome.ret r) :
    ∃ dc, d.Dynconfig = some dc := by
  cases hdc : d.Dynconfig with
  | some dc => exact ⟨dc, rfl⟩
  | none =>
    unfold SchedulerConfig.Notify SchedulerConfig.Get at h
    rw [hdc] at h
    exact absurd h (by simp)

theorem range_succ_flatten {α : Type} (f : Nat → List α) (n : Nat) :
    ((List.range (n + 1)).map f).flatten =
      f 0 ++ ((List.range n).map (fun k => f (k + 1))).flatten := by
  rw [List.range_succ_eq_map]
  simp [List.map_map, Function.comp_def]

theorem range_succ_filterMap {α : Type} (f : Nat → Option α) (n : Nat) :
    (List.range (n + 1)).filterMap f =
      (f 0).toList ++ (List.range n).filterMap (fun k => f (k + 1)) := by
  rw [List.range_succ_eq_map]
  cases h : f 0 <;> simp [List.filterMap_cons, h, List.filterMap_map, Function.comp_def]

theorem ticksBeforeStop_tick (rest : List Wake) :
    ticksBeforeStop (Wake.tick :: rest) = ticksBeforeStop rest + 1 := by
  simp [ticksBeforeStop, List.takeWhile]

theorem ticksBeforeStop_done (rest : List Wake) :
    ticksBeforeStop (Wake.done :: rest) = 0 := by
  simp [ticksBeforeStop, List.takeWhile]

/-- The loop of the scheduler role on every sequence of wake-ups and from
every trace. There is a run `st 0, st 1, ...` of the world from the state of
the trace in which round `k` is the call of `Notify` number `notifies + k`,
with outcome `out k`. The loop never panics and never returns an error; it
has returned nil when the stop signal is among the wake-ups and is blocked in
the `select` otherwise; and its trace is the old one extended by one round
per tick before the stop signal: the calls of `OnNotify` of all rounds in
order, the errors of the failed rounds in order, and the last state. -/
theorem SchedulerConfig.serveLoop_run {σ : Type} (seeds : Nat → Nat)
    (d : SchedulerConfig.dynconfig σ) (dc : DcDynconfig σ SchedulerConfig.DynconfigData)
    (hdc : d.Dynconfig = some dc) (wakes : List Wake) :
    ∀ tr : LoopTrace σ SchedulerConfig.DynconfigData,
      ∃ (st : Nat → σ)
        (out : Nat → Option GoError × List (Observer × Option SchedulerConfig.DynconfigData)),
        st 0 = tr.state ∧
        (∀ k, k < ticksBeforeStop wakes →
          SchedulerConfig.Notify (seeds (tr.notifies + k)) d (st k) =
            Outcome.ret (out k, st (k + 1))) ∧
        SchedulerConfig.serveLoop seeds d wakes tr =
          Outcome.ret (if Wake.done ∈ wakes then Progress.returned none else Progress.blocked,
            { notifies := tr.notifies + ticksBeforeStop wakes
              calls := tr.calls ++
                ((List.range (ticksBeforeStop wakes)).map (fun k => (out k).2)).flatten
              logged := tr.logged ++
                (List.range (ticksBeforeStop wakes)).filterMap (fun k => (out k).1)
              state := st (ticksBeforeStop wakes) }) := by
  induction wakes with
  | nil =>
    intro tr
    refine ⟨fun _ => tr.state, fun _ => (none, []), rfl, ?_, ?_⟩
    · intro k hk
      simp [ticksBeforeStop] at hk
    · simp [SchedulerConfig.serveLoop, ticksBeforeStop]
  | cons w rest ih =>
    intro tr
    cases w with
    | done =>
      refine ⟨fun _ => tr.state, fun _ => (none, []), rfl, ?_, ?_⟩
      · intro k hk
        rw [ticksBeforeStop_done] at hk
        exact absurd hk (Nat.not_lt_zero k)
      · simp [SchedulerConfig.serveLoop, ticksBeforeStop_done]
    | tick =>
      obtain ⟨err, calls, s1, hn⟩ :=
        SchedulerConfig.Notify_returns d dc hdc (seeds tr.notifies) tr.state
      have hmem : (Wake.done ∈ Wake.tick :: rest) ↔ Wake.done ∈ rest := by simp
      cases err with
      | none =>
        obtain ⟨st1, out1, h0, hchain, hloop⟩ := ih
          { notifies := tr.notifies + 1, calls := tr.calls ++ calls
            logged := tr.logged, state := s1 }
        simp only at h0 hchain
        refine ⟨fun k => if k = 0 then tr.state else st1 (k - 1),
          fun k => if k = 0 then (none, calls) else out1 (k - 1), ?_, ?_, ?_⟩
        · simp
        · intro k hk
          rw [ticksBeforeStop_tick] at hk
          cases k with
          | zero =>
            simp only [Nat.add_zero, if_true, Nat.zero_add, Nat.add_one_ne_zero, if_false,
              Nat.add_sub_cancel, h0]
            exact hn
          | succ j =>
            have hj := hchain j (by omega)
            simp only [Nat.add_one_ne_zero, if_false, Nat.add_sub_cancel]
            rw [show tr.notifies + (j + 1) = tr.notifies + 1 + j by omega]
            exact hj
        · simp only [SchedulerConfig.serveLoop, hn, hloop, hmem, ticksBeforeStop_tick,
            range_succ_flatten, range_succ_filterMap]
          simp [Nat.add_assoc, Nat.add_comm 1]
      | some e =>
        obtain ⟨st1, out1, h0, hchain, hloop⟩ := ih
          { notifies := tr.notifies + 1, calls := tr.calls ++ calls
            logged := tr.logged ++ [e], state := s1 }
        simp only at h0 hchain
        refine ⟨fun k => if k = 0 then tr.state else st1 (k - 1),
          fun k => if k = 0 then (some e, calls) else out1 (k - 1), ?_, ?_, ?_⟩
        · simp
        · intro k hk
          rw [ticksBeforeStop_tick] at hk
          cases k with
          | zero =>
            simp only [Nat.add_zero, if_true, Nat.zero_add, Nat.add_one_ne_zero, if_false,
              Nat.add_sub_cancel, h0]
            exact hn
          | succ j =>
            have hj := hchain j (by omega)
            simp only [Nat.add_one_ne_zero, if_false, Nat.add_sub_cancel]
            rw [show tr.notifies + (j + 1) = tr.notifies + 1 + j by omega]
            exact hj
        · simp only [SchedulerConfig.serveLoop, hn, hloop, hmem, ticksBeforeStop_tick,
            range_succ_flatten, range_succ_filterMap]
          simp [Nat.add_assoc, Nat.add_comm 1]

/-- On a store with an embedded store, `Notify` of the CDN role returns. -/
theorem CdnConfig.cdn_Notify_returns {σ : Type} (d : CdnConfig.dynconfig σ)
    (dc : DcDynconfig σ CdnConfig.DynconfigData) (hdc : d.Dynconfig = some dc)
    (seed : Nat) (s : σ) :
    ∃ err calls s1, CdnConfig.Notify seed d s = Outcome.ret ((err, calls), s1) := by
  unfold CdnConfig.Notify CdnConfig.Get
  rw [hdc]
  simp only
  rcases dc.Unmarshal s with ⟨err | config, s1⟩
  · exact ⟨_, _, _, rfl⟩
  · exact ⟨_, _, _, rfl⟩

/-- A call of `Notify` of the CDN role that returns had an embedded store to
go through. -/
theorem CdnConfig.cdn_store_of_Notify_returns {σ : Type} (d : CdnConfig.dynconfig σ)
    (seed : Nat) (s : σ)
    (r : (Option GoError × List (Observer × Option CdnConfig.DynconfigData)) × σ)
    (h : CdnConfig.Notify seed d s = Outcome.ret r) :
    ∃ dc, d.Dynconfig = some dc := by
  cases hdc : d.Dynconfig with
  | some dc => exact ⟨dc, rfl⟩
  | none =>
    unfold CdnConfig.Notify CdnConfig.Get at h
    rw [hdc] at h
    exact absurd h (by simp)

/-- The loop `watch` of the CDN role on every sequence of wake-ups and from
every trace. There is a run `st 0, st 1, ...` of the world from the state of
the trace in which round `k` is the call of `Notify` number `notifies + k`,
with outcome `out k`. The loop never panics; it
has returned when the stop signal is among the wake-ups and is blocked in
the `select` otherwise; and its trace is the old one extended by one round
per tick before the stop signal: the calls of `OnNotify` of all rounds in
order, the errors of the failed rounds in order, and the last state. -/
theorem CdnConfig.watch_run {σ : Type} (seeds : Nat → Nat)
    (d : CdnConfig.dynconfig σ) (dc : DcDynconfig σ CdnConfig.DynconfigData)
    (hdc : d.Dynconfig = some dc) (wakes : List Wake) :
    ∀ tr : LoopTrace σ CdnConfig.DynconfigData,
      ∃ (st : Nat → σ)
        (out : Nat → Option GoError × List (Observer × Option CdnConfig.DynconfigData)),
        st 0 = tr.state ∧
        (∀ k, k < ticksBeforeStop wakes →
          CdnConfig.Notify (seeds (tr.notifies + k)) d (st k) =
            Outcome.ret (out k, st (k + 1))) ∧
        CdnConfig.watch seeds d wakes tr =
          Outcome.ret (if Wake.done ∈ wakes then Progress.returned none else Progress.blocked,
            { notifies := tr.notifies + ticksBeforeStop wakes
              calls := tr.calls ++
                ((List.range (ticksBeforeStop wakes)).map (fun k => (out k).2)).flatten
              logged := tr.logged ++
                (List.range (ticksBeforeStop wakes)).filterMap (fun k => (out k).1)
              state := st (ticksBeforeStop wakes) }) := by
  induction wakes with
  | nil =>
    intro tr
    refine ⟨fun _ => tr.state, fun _ => (none, []), rfl, ?_, ?_⟩
    · intro k hk
      simp [ticksBeforeStop] at hk
    · simp [CdnConfig.watch, ticksBeforeStop]
  | cons w rest ih =>
    intro tr
    cases w with
    | done =>
      refine ⟨fun _ => tr.state, fun _ => (none, []), rfl, ?_, ?_⟩
      · intro k hk
        rw [ticksBeforeStop_done] at hk
        exact absurd hk (Nat.not_lt_zero k)
      · simp [CdnConfig.watch, ticksBeforeStop_done]
    | tick =>
      obtain ⟨err, calls, s1, hn⟩ :=
        CdnConfig.cdn_Notify_returns d dc hdc (seeds tr.notifies) tr.state
      have hmem : (Wake.done ∈ Wake.tick :: rest) ↔ Wake.done ∈ rest := by simp
      cases err with
      | none =>
        obtain ⟨st1, out1, h0, hchain, hloop⟩ := ih
          { notifies := tr.notifies + 1, calls := tr.calls ++ calls
            logged := tr.logged, state := s1 }
        simp only at h0 hchain
        refine ⟨fun k => if k = 0 then tr.state else st1 (k - 1),
          fun k => if k = 0 then (none, calls) else out1 (k - 1), ?_, ?_, ?_⟩
        · simp
        · intro k hk
          rw [ticksBeforeStop_tick] at hk
          cases k with
          | zero =>
            simp only [Nat.add_zero, if_true, Nat.zero_add, Nat.add_one_ne_zero, if_false,
              Nat.add_sub_cancel, h0]
            exact hn
          | succ j =>
            have hj := hchain j (by omega)
            simp only [Nat.add_one_ne_zero, if_false, Nat.add_sub_cancel]
            rw [show tr.notifies + (j + 1) = tr.notifies + 1 + j by omega]
            exact hj
        · simp only [CdnConfig.watch, hn, hloop, hmem, ticksBeforeStop_tick,
            range_succ_flatten, range_succ_filterMap]
          simp [Nat.add_assoc, Nat.add_comm 1]
      | some e =>
        obtain ⟨st1, out1, h0, hchain, hloop⟩ := ih
          { notifies := tr.notifies + 1, calls := tr.calls ++ calls
            logged := tr.logged ++ [e], state := s1 }
        simp only at h0 hchain
        refine ⟨fun k => if k = 0 then tr.state else st1 (k - 1),
          fun k => if k = 0 then (some e, calls) else out1 (k - 1), ?_, ?_, ?_⟩
        · simp
        · intro k hk
          rw [ticksBeforeStop_tick] at hk
          cases k with
          | zero =>
            simp only [Nat.add_zero, if_true, Nat.zero_add, Nat.add_one_ne_zero, if_false,
              Nat.add_sub_cancel, h0]
            exact hn
          | succ j =>
            have hj := hchain j (by omega)
            simp only [Nat.add_one_ne_zero, if_false, Nat.add_sub_cancel]
            rw [show tr.notifies + (j + 1) = tr.notifies + 1 + j by omega]
            exact hj
        · simp only [CdnConfig.watch, hn, hloop, hmem, ticksBeforeStop_tick,
            range_succ_flatten, range_succ_filterMap]
          simp [Nat.add_assoc, Nat.add_comm 1]

/-- C11. `Serve` propagates only the failure of the initial notification, in
both roles and for every sequence `wakes` of wake-ups of the loop. `Serve`
calls `Notify` once before any wake-up is handled. If that call fails, `Serve`
returns its error, the loop is not entered (in the CDN role the goroutine is
not started), and whatever ticks follow `Notify` has been called that once
and the world is as that call left it. If it succeeds, there is a run
`st 0, st 1, ...` of the world from the state that the first `Notify` left, in
which round `k` is the call of `Notify` number `1 + k` with outcome `out k`,
one round per tick before the stop signal, such that the loop never panics
and never returns an error: it is blocked in the `select` as long as no stop
signal has come and has returned nil once it has, and by then `Notify` has
been called once at the start and once per such tick, the calls of
`OnNotify` are those of the first `Notify` followed by those of the rounds in
order, the errors logged are exactly the errors of the failed rounds in
order, and the world is in the state the last round left. The result of
`Serve` is then nil: in the scheduler role when the loop returns, in the CDN
role right after the first `Notify`. A tick whose `Notify` fails logs the
error and goes on with the next wake-up. -/
theorem Serve_propagates_only_initial_failure {σ τ : Type} (seeds : Nat → Nat)
    (d : SchedulerConfig.dynconfig σ) (s : σ) (e : CdnConfig.dynconfig τ) (t : τ) :
    (∀ err calls s1,
      SchedulerConfig.Notify (seeds 0) d s = Outcome.ret ((some err, calls), s1) →
      ∀ wakes, SchedulerConfig.Serve seeds d wakes s =
        Outcome.ret (Progress.returned (some err),
          { notifies := 1, calls := calls, logged := [], state := s1 })) ∧
    (∀ calls s1,
      SchedulerConfig.Notify (seeds 0) d s = Outcome.ret ((none, calls), s1) →
      (∀ wakes, ∃ (st : Nat → σ)
          (out : Nat → Option GoError × List (Observer × Option SchedulerConfig.DynconfigData)),
        st 0 = s1 ∧
        (∀ k, k < ticksBeforeStop wakes →
          SchedulerConfig.Notify (seeds (1 + k)) d (st k) = Outcome.ret (out k, st (k + 1))) ∧
        SchedulerConfig.Serve seeds d wakes s =
          Outcome.ret (if Wake.done ∈ wakes then Progress.returned none else Progress.blocked,
            { notifies := 1 + ticksBeforeStop wakes
              calls := calls ++
                ((List.range (ticksBeforeStop wakes)).map (fun k => (out k).2)).flatten
              logged := (List.range (ticksBeforeStop wakes)).filterMap (fun k => (out k).1)
              state := st (ticksBeforeStop wakes) })) ∧
      (∀ rest tr err calls1 s2,
        SchedulerConfig.Notify (seeds tr.notifies) d tr.state =
          Outcome.ret ((some err, calls1), s2) →
        SchedulerConfig.serveLoop seeds d (Wake.tick :: rest) tr =
          SchedulerConfig.serveLoop seeds d rest
            { notifies := tr.notifies + 1, calls := tr.calls ++ calls1
              logged := tr.logged ++ [err], state := s2 }) ∧
      (∀ rest tr calls1 s2,
        SchedulerConfig.Notify (seeds tr.notifies) d tr.state =
          Outcome.ret ((none, calls1), s2) →
        SchedulerConfig.serveLoop seeds d (Wake.tick :: rest) tr =
          SchedulerConfig.serveLoop seeds d rest
            { notifies := tr.notifies + 1, calls := tr.calls ++ calls1
              logged := tr.logged, state := s2 })) ∧
    (∀ err calls t1,
      CdnConfig.Notify (seeds 0) e t = Outcome.ret ((some err, calls), t1) →
      ∀ wakes, CdnConfig.Serve seeds e wakes t =
        Outcome.ret ((some err, none),
          { notifies := 1, calls := calls, logged := [], state := t1 })) ∧
    (∀ calls t1,
      CdnConfig.Notify (seeds 0) e t = Outcome.ret ((none, calls), t1) →
      (∀ wakes, ∃ (st : Nat → τ)
          (out : Nat → Option GoError × List (Observer × Option CdnConfig.DynconfigData)),
        st 0 = t1 ∧
        (∀ k, k < ticksBeforeStop wakes →
          CdnConfig.Notify (seeds (1 + k)) e (st k) = Outcome.ret (out k, st (k + 1))) ∧
        CdnConfig.Serve seeds e wakes t =
          Outcome.ret ((none,
            some (if Wake.done ∈ wakes then Progress.returned none else Progress.blocked)),
            { notifies := 1 + ticksBeforeStop wakes
              calls := calls ++
                ((List.range (ticksBeforeStop wakes)).map (fun k => (out k).2)).flatten
              logged := (List.range (ticksBeforeStop wakes)).filterMap (fun k => (out k).1)
              state := st (ticksBeforeStop wakes) })) ∧
      (∀ rest tr err calls1 t2,
        CdnConfig.Notify (seeds tr.notifies) e tr.state =
          Outcome.ret ((some err, calls1), t2) →
        CdnConfig.watch seeds e (Wake.tick :: rest) tr =
          CdnConfig.watch seeds e rest
            { notifies := tr.notifies + 1, calls := tr.calls ++ calls1
              logged := tr.logged ++ [err], state := t2 }) ∧
      (∀ rest tr calls1 t2,
        CdnConfig.Notify (seeds tr.notifies) e tr.state =
          Outcome.ret ((none, calls1), t2) →
        CdnConfig.watch seeds e (Wake.tick :: rest) tr =
          CdnConfig.watch seeds e rest
            { notifies := tr.notifies + 1, calls := tr.calls ++ calls1
              logged := tr.logged, state := t2 })) := by
  refine ⟨?_, ?_, ?_, ?_⟩
  · intro err calls s1 hn wakes
    unfold SchedulerConfig.Serve
    rw [hn]
  · intro calls s1 hn
    refine ⟨?_, ?_, ?_⟩
    · intro wakes
      obtain ⟨dc, hdc⟩ := SchedulerConfig.store_of_Notify_returns d (seeds 0) s _ hn
      obtain ⟨st, out, h0, hchain, hloop⟩ := SchedulerConfig.serveLoop_run seeds d dc hdc wakes
        { notifies := 1, calls := calls, logged := [], state := s1 }
      refine ⟨st, out, h0, hchain, ?_⟩
      unfold SchedulerConfig.Serve
      rw [hn]
      simpa using hloop
    · intro rest tr err calls1 s2 h
      simp only [SchedulerConfig.serveLoop, h]
    · intro rest tr calls1 s2 h
      simp only [SchedulerConfig.serveLoop, h]
  · intro err calls t1 hn wakes
    unfold CdnConfig.Serve
    rw [hn]
  · intro calls t1 hn
    refine ⟨?_, ?_, ?_⟩
    · intro wakes
      obtain ⟨dc, hdc⟩ := CdnConfig.cdn_store_of_Notify_returns e (seeds 0) t _ hn
      obtain ⟨st, out, h0, hchain, hloop⟩ := CdnConfig.watch_run seeds e dc hdc wakes
        { notifies := 1, calls := calls, logged := [], state := t1 }
      refine ⟨st, out, h0, hchain, ?_⟩
      unfold CdnConfig.Serve
      rw [hn]
      simp only [hloop]
      simp
    · intro rest tr err calls1 t2 h
      simp only [CdnConfig.watch, h]
    · intro rest tr calls1 t2 h
      simp only [CdnConfig.watch, h]

/-- C11 on stores whose decoding fails at every second call. Started on a
failing call, `Serve` returns that error and the two ticks that follow trigger
no `Notify`. Started on a succeeding call, the scheduler-role `Serve` handles
two ticks, the first of which fails and is logged, and returns nil at the stop
signal after three calls of `Notify`, the tick after the stop signal being
ignored; the CDN-role `Serve` returns nil and its goroutine is blocked in the
`select` after two ticks, with the same trace. -/
theorem Serve_propagates_only_initial_failure_witness :
    SchedulerConfig.Notify 0 Examples.flakyScheduler 1 =
      Outcome.ret ((some (errorsNew "decode failed"), []), 2) ∧
    SchedulerConfig.Serve (fun _ => 0) Examples.flakyScheduler [Wake.tick, Wake.tick] 1 =
      Outcome.ret (Progress.returned (some (errorsNew "decode failed")),
        { notifies := 1, calls := [], logged := [], state := 2 }) ∧
    CdnConfig.Notify 0 Examples.flakyCdn 1 =
      Outcome.ret ((some (errorsNew "decode failed"), []), 2) ∧
    CdnConfig.Serve (fun _ => 0) Examples.flakyCdn [Wake.tick, Wake.tick] 1 =
      Outcome.ret ((some (errorsNew "decode failed"), none),
        { notifies := 1, calls := [], logged := [], state := 2 }) ∧
    SchedulerConfig.Notify 0 Examples.flakyScheduler 0 =
      Outcome.ret ((none, [(1, some { Scheduler := none, Applications := [] })]), 1) ∧
    (∃ (st : Nat → Nat)
        (out : Nat → Option GoError × List (Observer × Option SchedulerConfig.DynconfigData)),
      st 0 = 1 ∧
      (∀ k, k < ticksBeforeStop [Wake.tick, Wake.tick, Wake.done, Wake.tick] →
        SchedulerConfig.Notify 0 Examples.flakyScheduler (st k) =
          Outcome.ret (out k, st (k + 1))) ∧
      SchedulerConfig.Serve (fun _ => 0) Examples.flakyScheduler
          [Wake.tick, Wake.tick, Wake.done, Wake.tick] 0 =
        Outcome.ret (Progress.returned none,
          { notifies := 1 + ticksBeforeStop [Wake.tick, Wake.tick, Wake.done, Wake.tick]
            calls := [(1, some { Scheduler := none, Applications := [] })] ++
              ((List.range (ticksBeforeStop [Wake.tick, Wake.tick, Wake.done, Wake.tick])).map
                (fun k => (out k).2)).flatten
            logged := (List.range
              (ticksBeforeStop [Wake.tick, Wake.tick, Wake.done, Wake.tick])).filterMap
                (fun k => (out k).1)
            state := st (ticksBeforeStop [Wake.tick, Wake.tick, Wake.done, Wake.tick]) })) ∧
    SchedulerConfig.Serve (fun _ => 0) Examples.flakyScheduler
        [Wake.tick, Wake.tick, Wake.done, Wake.tick] 0 =
      Outcome.ret (Progress.returned none,
        { notifies := 3
          calls := [(1, some { Scheduler := none, Applications := [] }),
                    (1, some { Scheduler := none, Applications := [] })]
          logged := [errorsNew "decode failed"], state := 3 }) ∧
    CdnConfig.Notify 0 Examples.flakyCdn 0 =
      Outcome.ret ((none, [(1, some { SchedulerCluster := none })]), 1) ∧
    (∃ (st : Nat → Nat)
        (out : Nat → Option GoError × List (Observer × Option CdnConfig.DynconfigData)),
      st 0 = 1 ∧
      (∀ k, k < ticksBeforeStop [Wake.tick, Wake.tick] →
        CdnConfig.Notify 0 Examples.flakyCdn (st k) = Outcome.ret (out k, st (k + 1))) ∧
      CdnConfig.Serve (fun _ => 0) Examples.flakyCdn [Wake.tick, Wake.tick] 0 =
        Outcome.ret ((none, some Progress.blocked),
          { notifies := 1 + ticksBeforeStop [Wake.tick, Wake.tick]
            calls := [(1, some { SchedulerCluster := none })] ++
              ((List.range (ticksBeforeStop [Wake.tick, Wake.tick])).map
                (fun k => (out k).2)).flatten
            logged := (List.range (ticksBeforeStop [Wake.tick, Wake.tick])).filterMap
              (fun k => (out k).1)
            state := st (ticksBeforeStop [Wake.tick, Wake.tick]) })) ∧
    CdnConfig.Serve (fun _ => 0) Examples.flakyCdn [Wake.tick, Wake.tick] 0 =
      Outcome.ret ((none, some Progress.blocked),
        { notifies := 3
          calls := [(1, some { SchedulerCluster := none }), (1, some { SchedulerCluster := none })]
          logged := [errorsNew "decode failed"], state := 3 }) ∧
    CdnConfig.Serve (fun _ => 0) Examples.flakyCdn [Wake.tick, Wake.done, Wake.tick] 0 =
      Outcome.ret ((none, some (Progress.returned none)),
        { notifies := 2, calls := [(1, some { SchedulerCluster := none })]
          logged := [errorsNew "decode failed"], state := 2 }) :=
  ⟨by decide,
    (Serve_propagates_only_initial_failure (fun _ => 0) Examples.flakyScheduler 1
      Examples.flakyCdn 1).1 (errorsNew "decode failed") [] 2 (by decide)
      [Wake.tick, Wake.tick],
    by decide,
    (Serve_propagates_only_initial_failure (fun _ => 0) Examples.flakyScheduler 1
      Examples.flakyCdn 1).2.2.1 (errorsNew "decode failed") [] 2 (by decide)
      [Wake.tick, Wake.tick],
    by decide,
    ((Serve_propagates_only_initial_failure (fun _ => 0) Examples.flakyScheduler 0
      Examples.flakyCdn 0).2.1 [(1, some { Scheduler := none, Applications := [] })] 1
      (by decide)).1 [Wake.tick, Wake.tick, Wake.done, Wake.tick],
    by decide,
    by decide,
    ((Serve_propagates_only_initial_failure (fun _ => 0) Examples.flakyScheduler 0
      Examples.flakyCdn 0).2.2.2 [(1, some { SchedulerCluster := none })] 1
      (by decide)).1 [Wake.tick, Wake.tick],
    by decide,
    by decide⟩

/-! ## A payload without scheduler descriptor -/

/-- Whenever `Get` returns a payload whose scheduler descriptor is nil, each
of the four getters that read the descriptor panics on it. -/
theorem getters_panic_of_nil_descriptor {σ Cfg ClientCfg : Type}
    (jsonUnmarshal : Bytes → Except GoError Cfg) (zero : Cfg)
    (jsonUnmarshalClient : Bytes → Except GoError ClientCfg) (zeroClient : ClientCfg)
    (net : SchedulerConfig.Network) (d : SchedulerConfig.dynconfig σ) (s s1 : σ)
    (data : SchedulerConfig.DynconfigData)
    (hget : SchedulerConfig.Get d s = Outcome.ret ((some data, none), s1))
    (hnil : data.Scheduler = none) :
    SchedulerConfig.GetSeedPeers d s = Outcome.goPanic nilDereference ∧
    SchedulerConfig.GetSchedulerClusterConfig jsonUnmarshal zero d s =
      Outcome.goPanic nilDereference ∧
    SchedulerConfig.GetSchedulerClusterClientConfig jsonUnmarshalClient zeroClient d s =
      Outcome.goPanic nilDereference ∧
    SchedulerConfig.GetResolveSeedPeerAddrs net d s = Outcome.goPanic nilDereference := by
  have hseed : SchedulerConfig.GetSeedPeers d s = Outcome.goPanic nilDereference := by
    unfold SchedulerConfig.GetSeedPeers
    rw [hget]
    simp only [hnil]
  refine ⟨hseed, ?_, ?_, ?_⟩
  · unfold SchedulerConfig.GetSchedulerClusterConfig
    rw [hget]
    simp only [hnil]
  · unfold SchedulerConfig.GetSchedulerClusterClientConfig
    rw [hget]
    simp only [hnil]
  · unfold SchedulerConfig.GetResolveSeedPeerAddrs
    rw [hseed]

/-- C12, the code at the failing input. On a store whose `Get` returns,
without error, a payload with a nil scheduler descriptor, `GetApplications`
returns, while `GetSeedPeers`, `GetSchedulerClusterConfig`,
`GetSchedulerClusterClientConfig` and `GetResolveSeedPeerAddrs` dereference
the nil descriptor and panic, for every decoder and every network: none of
them returns a value or an error. The sibling function
`GetSeedPeerClusterConfigBySeedPeer` does guard its outer pointer and returns
the error `invalid seed peer` on nil. -/
theorem typed_getters_dereference_nil_descriptor :
    SchedulerConfig.Get (Examples.storeWith none) () =
      Outcome.ret ((some { Scheduler := none, Applications := [] }, none), ()) ∧
    SchedulerConfig.GetApplications (Examples.storeWith none) () =
      Outcome.ret (([], none), ()) ∧
    SchedulerConfig.GetSeedPeers (Examples.storeWith none) () =
      Outcome.goPanic nilDereference ∧
    (∀ (Cfg : Type) (jsonUnmarshal : Bytes → Except GoError Cfg) (zero : Cfg),
      SchedulerConfig.GetSchedulerClusterConfig jsonUnmarshal zero
        (Examples.storeWith none) () = Outcome.goPanic nilDereference) ∧
    (∀ (Cfg : Type) (jsonUnmarshal : Bytes → Except GoError Cfg) (zero : Cfg),
      SchedulerConfig.GetSchedulerClusterClientConfig jsonUnmarshal zero
        (Examples.storeWith none) () = Outcome.goPanic nilDereference) ∧
    (∀ net : SchedulerConfig.Network,
      SchedulerConfig.GetResolveSeedPeerAddrs net (Examples.storeWith none) () =
        Outcome.goPanic nilDereference) ∧
    (¬ ∃ r, SchedulerConfig.GetSeedPeers (Examples.storeWith none) () = Outcome.ret r) ∧
    (¬ ∃ r, SchedulerConfig.GetResolveSeedPeerAddrs Examples.allUp
      (Examples.storeWith none) () = Outcome.ret r) ∧
    (∀ (Cfg : Type) (jsonUnmarshal : Bytes → Except GoError Cfg) (zero : Cfg),
      SchedulerConfig.GetSeedPeerClusterConfigBySeedPeer jsonUnmarshal zero none =
        (zero, some (errorsNew "invalid seed peer"))) := by
  refine ⟨rfl, rfl, rfl, fun _ _ _ => rfl, fun _ _ _ => rfl, fun _ => rfl, ?_, ?_,
    fun _ _ _ => rfl⟩
  · rintro ⟨r, hr⟩
    exact Outcome.noConfusion hr
  · rintro ⟨r, hr⟩
    exact Outcome.noConfusion hr

end Dragonfly
